import Mathlib

/-!
Verification of the product-search core of the ClientConnect repository.

Strings are modelled as `List Char`; all scores are modelled as exact
rationals (`ℚ`).  Every definition is a direct translation of a function of
the source tree:

* `PlaceOrder.*`    — `src/client/src/pages/place-order.tsx`
* `Part004.*`       — the standalone similarity module (`src/unnamed/part_004`)
* `SmartSearch.*`   — `src/client/src/lib/smart-search.ts`

JavaScript specifics are rendered as follows: `Array.prototype.sort` (stable
since ES2019) becomes the stable `List.mergeSort` with the predicate
"comparator ≤ 0"; a missing object property read back in JavaScript yields
`undefined`, rendered as `none`; `string.includes` becomes infix testing on
`List Char`; character handling is the ASCII fragment actually exercised by
the search code.
-/

namespace JsStr

/-- The whitespace characters of the JavaScript `\s` class (ASCII fragment):
space, tab, line feed, vertical tab, form feed, carriage return. -/
def isWs (c : Char) : Bool :=
  c == ' ' || c == '\t' || c == '\n' || c == '\x0b' || c == '\x0c' || c == '\r'

/-- `String.prototype.trim`: drop whitespace from both ends. -/
def trim (s : List Char) : List Char :=
  ((s.dropWhile isWs).reverse.dropWhile isWs).reverse

/-- `String.prototype.toLowerCase` (ASCII fragment). -/
def lower (s : List Char) : List Char := s.map Char.toLower

/-- `String.prototype.toUpperCase` (ASCII fragment). -/
def upper (s : List Char) : List Char := s.map Char.toUpper

/-- `String.prototype.includes`: substring containment, scanning every
suffix for `sub` as a prefix. -/
def includes : List Char → List Char → Bool
  | s, sub =>
    sub.isPrefixOf s ||
      match s with
      | [] => false
      | _ :: cs => includes cs sub

/-- `string.split(' ')`: split at every single space character. -/
def splitSp (s : List Char) : List (List Char) := s.splitOn ' '

/-- `string.split(/\s+/)` followed by discarding empty fragments (the caller
always filters fragments of length ≤ 1, which removes the empty artifacts
produced at the ends by the JavaScript call): the maximal runs of
non-whitespace characters. -/
def wsWords (s : List Char) : List (List Char) :=
  (s.splitOnP (fun c => isWs c)).filter (fun w => w ≠ [])

/-- `Array.prototype.indexOf`, which returns `-1` when absent. -/
def jsIndexOf (l : List String) (x : String) : Int :=
  match l.findIdx? (fun y => y == x) with
  | some i => (i : Int)
  | none => -1

end JsStr

/-- Exact rational scores in a normalisation-free representation: the value
is `num / (d1 + 1)`, so the denominator is positive by construction.  All
numeric operations of the JavaScript sources are translated to operations on
`Q`; `Q.val` maps a score to the rational number it denotes, and the bridge
lemmas below identify each operation with the corresponding operation on
`ℚ`.  (JavaScript computes on binary floating point; like the spec, we read
the scoring arithmetic exactly, over the rationals.) -/
structure Q where
  num : Int
  d1 : Nat
deriving DecidableEq, Repr

namespace Q

/-- The (positive) denominator. -/
def den (q : Q) : Int := (q.d1 : Int) + 1

/-- The rational value of a score. -/
def val (q : Q) : ℚ := (q.num : ℚ) / ((q.d1 : ℚ) + 1)

/-- Whole numbers. -/
def ofNat (n : Nat) : Q := ⟨n, 0⟩

instance (n : Nat) : OfNat Q n := ⟨ofNat n⟩

instance : OfScientific Q :=
  ⟨fun m b e => if b then ⟨m, 10 ^ e - 1⟩ else ⟨(m : Int) * 10 ^ e, 0⟩⟩

/-- `a * b`. -/
def mul (a b : Q) : Q := ⟨a.num * b.num, (a.d1 + 1) * (b.d1 + 1) - 1⟩

/-- `a + b`. -/
def add (a b : Q) : Q :=
  ⟨a.num * ((b.d1 : Int) + 1) + b.num * ((a.d1 : Int) + 1), (a.d1 + 1) * (b.d1 + 1) - 1⟩

/-- `a - b`. -/
def sub (a b : Q) : Q :=
  ⟨a.num * ((b.d1 : Int) + 1) - b.num * ((a.d1 : Int) + 1), (a.d1 + 1) * (b.d1 + 1) - 1⟩

/-- `a / b`.  The sources only ever divide by a strictly positive quantity;
for `b.num ≤ 0` the result is junk (JavaScript would produce an infinity or
`NaN` there). -/
def div (a b : Q) : Q := ⟨a.num * ((b.d1 : Int) + 1), (a.d1 + 1) * b.num.toNat - 1⟩

/-- `a <= b`, by cross multiplication (denominators are positive). -/
def ble (a b : Q) : Bool := a.num * ((b.d1 : Int) + 1) ≤ b.num * ((a.d1 : Int) + 1)

/-- `a < b`. -/
def blt (a b : Q) : Bool := a.num * ((b.d1 : Int) + 1) < b.num * ((a.d1 : Int) + 1)

/-- `a === b` on numbers. -/
def beq (a b : Q) : Bool := a.num * ((b.d1 : Int) + 1) == b.num * ((a.d1 : Int) + 1)

/-- `Math.max(a, b)`. -/
def max (a b : Q) : Q := if blt a b then b else a

end Q


namespace Part004

/-- The recurrence of the dynamic-programming matrix of `levenshtein` in
`src/unnamed/part_004`: `matrix[i][j] = matrix[i-1][j-1]` on equal
characters and `1 + min` of the three neighbour cells otherwise.  The
recursion is fuelled to keep it structural; one unit of fuel is consumed per
discarded character, so any fuel `≥ a.length + b.length + 1` computes the
full matrix value (see `levenshtein` below). -/
def levFuel : Nat → List Char → List Char → Nat
  | 0, _, _ => 0
  | _ + 1, [], b => b.length
  | _ + 1, a, [] => a.length
  | f + 1, x :: xs, y :: ys =>
    if x = y then levFuel f xs ys
    else
      Nat.min (levFuel f xs ys + 1)
        (Nat.min (levFuel f (x :: xs) ys + 1) (levFuel f xs (y :: ys) + 1))

/-- `levenshtein` of `src/unnamed/part_004`: the standard unit-cost edit
distance, computed by the matrix recurrence above. -/
def levenshtein (a b : List Char) : Nat :=
  levFuel (a.length + b.length + 1) a b

/-- `calculateSimilarity` of `src/unnamed/part_004`:
`maxLength === 0 ? 1 : 1 - distance / maxLength`. -/
def calculateSimilarity (a b : List Char) : Q :=
  let distance := levenshtein a b
  let maxLength := Nat.max a.length b.length
  if maxLength = 0 then 1 else Q.sub 1 (Q.div (Q.ofNat distance) (Q.ofNat maxLength))

end Part004

namespace PlaceOrder

/-- The recurrence of the Levenshtein matrix computed inside
`calculateSimilarity` of `place-order.tsx`: unit costs, with the
substitution cell taking `cost = 0/1` according to character equality and
the minimum over the three neighbour cells taken unconditionally.  Fuelled
to keep the recursion structural; one unit of fuel is consumed per discarded
character, so any fuel `≥ a.length + b.length + 1` computes the full matrix
value (see `lev` below). -/
def levFuel : Nat → List Char → List Char → Nat
  | 0, _, _ => 0
  | _ + 1, [], b => b.length
  | _ + 1, a, [] => a.length
  | f + 1, x :: xs, y :: ys =>
    let cost : Nat := if x = y then 0 else 1
    Nat.min (levFuel f (x :: xs) ys + 1)
      (Nat.min (levFuel f xs (y :: ys) + 1) (levFuel f xs ys + cost))

/-- The value `matrix[s2.length][s1.length]` of the Levenshtein matrix of
`calculateSimilarity` in `place-order.tsx`. -/
def lev (a b : List Char) : Nat :=
  levFuel (a.length + b.length + 1) a b

/-- `calculateSimilarity` of `place-order.tsx`: lowercase both strings, then
`1` on equality, `0.9` when either contains the other, otherwise the
normalised Levenshtein value `1 - distance / maxLength`. -/
def calculateSimilarity (str1 str2 : List Char) : Q :=
  let s1 := JsStr.lower str1
  let s2 := JsStr.lower str2
  if s1 = s2 then 1
  else if JsStr.includes s1 s2 || JsStr.includes s2 s1 then 0.9
  else Q.sub 1 (Q.div (Q.ofNat (lev s1 s2)) (Q.ofNat (Nat.max s1.length s2.length)))

end PlaceOrder


namespace Rx

/-- Regular-expression syntax covering the patterns used by the search code:
character classes, sequencing, alternation (JavaScript tries the left
alternative first), greedy Kleene star, the empty pattern, and the
zero-width word-boundary assertion `\b`. -/
inductive RE where
  | eps : RE
  | cls (p : Char → Bool) : RE
  | seq (a b : RE) : RE
  | alt (a b : RE) : RE
  | star (a : RE) : RE
  | bnd : RE

/-- JavaScript word character (`\w`, ASCII): letter, digit or underscore. -/
def isWordChar (c : Char) : Bool := c.isAlpha || c.isDigit || c == '_'

/-- Word-character test on the character before the position. -/
def isWordOpt : Option Char → Bool
  | some c => isWordChar c
  | none => false

/-- Word-character test on the character at the position. -/
def isWordHead : List Char → Bool
  | [] => false
  | c :: _ => isWordChar c

/-- Backtracking matcher in continuation style; returns the first success of
the continuation in JavaScript order (greedy quantifiers, left alternative
first).  `prev` is the character before the current position, for `\b`.
The fuel bounds the recursion depth, which is at most the pattern size plus
the number of consumed characters per star chain, so the generous fuel used
by `tryAt` below never runs out on the patterns of the sources. -/
def mFind {α : Type} : Nat → RE → Option Char → List Char →
    (Option Char → List Char → Option α) → Option α
  | 0, _, _, _, _ => none
  | _ + 1, .eps, prev, s, k => k prev s
  | _ + 1, .cls p, _, s, k =>
    match s with
    | [] => none
    | c :: cs => if p c then k (some c) cs else none
  | _ + 1, .bnd, prev, s, k =>
    if isWordOpt prev != isWordHead s then k prev s else none
  | f + 1, .seq a b, prev, s, k =>
    mFind f a prev s (fun prev2 s2 => mFind f b prev2 s2 k)
  | f + 1, .alt a b, prev, s, k =>
    (mFind f a prev s k).orElse (fun _ => mFind f b prev s k)
  | f + 1, .star a, prev, s, k =>
    (mFind f a prev s (fun prev2 s2 => mFind f (.star a) prev2 s2 k)).orElse
      (fun _ => k prev s)

/-- Size of a pattern, used to provision fuel. -/
def size : RE → Nat
  | .eps => 1
  | .cls _ => 1
  | .seq a b => size a + size b + 1
  | .alt a b => size a + size b + 1
  | .star a => size a + 2
  | .bnd => 1

/-- Attempt a match of `r` at the current position; on success, return the
last consumed character and the remaining input. -/
def tryAt (r : RE) (prev : Option Char) (s : List Char) :
    Option (Option Char × List Char) :=
  mFind ((size r + 1) * (s.length + 2)) r prev s (fun p2 s2 => some (p2, s2))

/-- Scanning with the `g` flag, as `String.prototype.match` does: try a
match at each position from left to right, consume matched text, and advance
one character past a failed or empty match. -/
def scanAll : Nat → RE → Option Char → List Char → List (List Char)
  | 0, _, _, _ => []
  | f + 1, r, prev, s =>
    match tryAt r prev s with
    | some (p2, rest) =>
      if rest.length < s.length then
        s.take (s.length - rest.length) :: scanAll f r p2 rest
      else
        match s with
        | [] => []
        | c :: cs => scanAll f r (some c) cs
    | none =>
      match s with
      | [] => []
      | c :: cs => scanAll f r (some c) cs

/-- All matches of `r` in `text` (the `g` flag). -/
def matchAll (r : RE) (text : List Char) : List (List Char) :=
  scanAll (text.length + 1) r none text

/-- First-match scanning without the `g` flag. -/
def firstMatch : Nat → RE → Option Char → List Char → Option (List Char)
  | 0, _, _, _ => none
  | f + 1, r, prev, s =>
    match tryAt r prev s with
    | some (_, rest) => some (s.take (s.length - rest.length))
    | none =>
      match s with
      | [] => none
      | c :: cs => firstMatch f r (some c) cs

/-- The first match of `r` in `text`, if any. -/
def search (r : RE) (text : List Char) : Option (List Char) :=
  firstMatch (text.length + 1) r none text

/-- A single literal character. -/
def chr (c : Char) : RE := .cls (fun x => x == c)

/-- A single literal character, case-insensitively (`i` flag). -/
def chrCI (c : Char) : RE := .cls (fun x => x.toLower == c.toLower)

/-- A literal word, case-insensitively. -/
def litCI (w : List Char) : RE := w.foldr (fun c r => .seq (chrCI c) r) .eps

/-- `r+`. -/
def rep1 (r : RE) : RE := .seq r (.star r)

/-- `r{n,}`. -/
def atLeast : Nat → RE → RE
  | 0, r => .star r
  | n + 1, r => .seq r (atLeast n r)

/-- `r?` (greedy: the present branch is tried first). -/
def opt (r : RE) : RE := .alt r .eps

/-- `\d`. -/
def digit : RE := .cls Char.isDigit

/-- `[A-Z0-9]` under the `i` flag. -/
def alnum : RE := .cls (fun c => c.isAlpha || c.isDigit)

/-- `[A-Z]` under the `i` flag. -/
def letter : RE := .cls Char.isAlpha

/-- `\s`. -/
def wsCls : RE := .cls JsStr.isWs

/-- `[a-z0-9-]` under the `i` flag. -/
def aldash : RE := .cls (fun c => c.isAlpha || c.isDigit || c == '-')

end Rx

namespace PlaceOrder

/-- Pattern 1 of `extractOEMCodes`: `/\b(?:OEM\s+)?([A-Z0-9]{4,})\b/gi`. -/
def oemP1 : Rx.RE :=
  .seq .bnd (.seq (Rx.opt (.seq (Rx.litCI (("OEM").data)) (Rx.rep1 Rx.wsCls)))
    (.seq (Rx.atLeast 4 Rx.alnum) .bnd))

/-- Pattern 2 of `extractOEMCodes`: `/\b([0-9]{5,}[A-Z]*)\b/gi`. -/
def oemP2 : Rx.RE :=
  .seq .bnd (.seq (Rx.atLeast 5 Rx.digit) (.seq (.star Rx.letter) .bnd))

/-- Pattern 3 of `extractOEMCodes`: `/\b([A-Z]{2,}[0-9]{3,})\b/gi`. -/
def oemP3 : Rx.RE :=
  .seq .bnd (.seq (Rx.atLeast 2 Rx.letter) (.seq (Rx.atLeast 3 Rx.digit) .bnd))

/-- Pattern 4 of `extractOEMCodes`: `/\b([0-9]{3,}[A-Z][0-9]*)\b/gi`. -/
def oemP4 : Rx.RE :=
  .seq .bnd (.seq (Rx.atLeast 3 Rx.digit) (.seq Rx.letter (.seq (.star Rx.digit) .bnd)))

/-- `match.replace(/^OEM\s+/i, '')`: drop a leading case-insensitive `OEM`
marker together with the (maximal) run of whitespace after it. -/
def stripOEM (m : List Char) : List Char :=
  match m with
  | o :: e :: em :: rest =>
    if o.toLower == 'o' && e.toLower == 'e' && em.toLower == 'm' &&
        (match rest with | c :: _ => JsStr.isWs c | [] => false) then
      rest.dropWhile JsStr.isWs
    else m
  | _ => m

/-- `extractOEMCodes` of `place-order.tsx`: collect the matches of the four
patterns over the text, clean each match (strip a leading `OEM ` marker,
uppercase), keep codes of length ≥ 4, and deduplicate preserving
first-insertion order (the `Set` of the source). -/
def extractOEMCodes (text : List Char) : List (List Char) :=
  [oemP1, oemP2, oemP3, oemP4].foldl (fun codes p =>
    (Rx.matchAll p text).foldl (fun codes m =>
      let cleaned := JsStr.upper (stripOEM m)
      if 4 ≤ cleaned.length then
        if codes.contains cleaned then codes else codes ++ [cleaned]
      else codes) codes) []

/-- `isOEMSimilar` of `place-order.tsx`. -/
def isOEMSimilar (code1 code2 : List Char) : Q :=
  if code1 = code2 then 1.0
  else if JsStr.includes code1 code2 || JsStr.includes code2 code1 then 0.9
  else
    let prefixMatch := code1.take 3 = code2.take 3
    let suffixMatch := code1.drop (code1.length - 3) = code2.drop (code2.length - 3)
    if prefixMatch ∧ suffixMatch then 0.8
    else if prefixMatch ∨ suffixMatch then 0.6
    else
      let similarity := calculateSimilarity code1 code2
      if Q.blt 0.7 similarity then similarity else 0

/-- The `Product` interface of `place-order.tsx`. -/
structure Product where
  id : List Char
  name : List Char
  itemCode : List Char
  description : Option (List Char)
  price : List Char
  currency : List Char
  stockQuantity : Option Int
  category : Option (List Char)
  image : Option (List Char)
deriving DecidableEq, Repr

/-- Pattern `/\b(\d+w\d+)\b/i` (viscosity, case-insensitive — used by
`extractSpecs`). -/
def viscReI : Rx.RE :=
  .seq .bnd (.seq (Rx.rep1 Rx.digit) (.seq (Rx.chrCI 'w') (.seq (Rx.rep1 Rx.digit) .bnd)))

/-- Pattern `/\b(\d+w\d+)\b/` (viscosity, case-sensitive — used by the
specification tier on the already-lowercased query). -/
def viscRe : Rx.RE :=
  .seq .bnd (.seq (Rx.rep1 Rx.digit) (.seq (Rx.chr 'w') (.seq (Rx.rep1 Rx.digit) .bnd)))

/-- Pattern `/\b(\d+(?:\.\d+)?l)\b/i` (volume, case-insensitive). -/
def volReI : Rx.RE :=
  .seq .bnd (.seq (Rx.rep1 Rx.digit)
    (.seq (Rx.opt (.seq (Rx.chr '.') (Rx.rep1 Rx.digit))) (.seq (Rx.chrCI 'l') .bnd)))

/-- Pattern `/\b(\d+(?:\.\d+)?l)\b/` (volume, case-sensitive). -/
def volRe : Rx.RE :=
  .seq .bnd (.seq (Rx.rep1 Rx.digit)
    (.seq (Rx.opt (.seq (Rx.chr '.') (Rx.rep1 Rx.digit))) (.seq (Rx.chr 'l') .bnd)))

/-- Pattern `/\b(sae|api|acea)\s*([a-z0-9-]+)\b/i` (grade). -/
def gradeReI : Rx.RE :=
  .seq .bnd (.seq (.alt (Rx.litCI (("sae").data))
      (.alt (Rx.litCI (("api").data)) (Rx.litCI (("acea").data))))
    (.seq (.star Rx.wsCls) (.seq (Rx.rep1 Rx.aldash) .bnd)))

/-- Pattern `/\b(gasoline|diesel|engine|gear|transmission)\b/i`
(application). -/
def appReI : Rx.RE :=
  .seq .bnd (.seq (.alt (Rx.litCI (("gasoline").data))
      (.alt (Rx.litCI (("diesel").data))
        (.alt (Rx.litCI (("engine").data))
          (.alt (Rx.litCI (("gear").data)) (Rx.litCI (("transmission").data))))))
    .bnd)

/-- Capture group 2 of the grade pattern: the full match starts with one of
the keywords `sae`, `api`, `acea` (unambiguously identifiable from the
match text), followed by the whitespace consumed by `\s*`, followed by the
group-2 text. -/
def gradeG2 (m : List Char) : List Char :=
  let low := JsStr.lower m
  let rest :=
    if (("sae").data).isPrefixOf low then m.drop 3
    else if (("api").data).isPrefixOf low then m.drop 3
    else if (("acea").data).isPrefixOf low then m.drop 4
    else m
  rest.dropWhile JsStr.isWs

/-- The record assembled by the local `extractSpecs` helper of
`areProductsSimilar`. -/
structure Specs where
  viscosity : Option (List Char)
  volume : Option (List Char)
  brand : List Char
  category : Option (List Char)
  grade : Option (List Char)
  application : Option (List Char)
deriving DecidableEq, Repr

/-- `extractSpecs` of `areProductsSimilar` in `place-order.tsx`: match the
spec patterns over the lowercased concatenation of name, item code and
description; the brand is the lowercased first space-separated word of the
name. -/
def extractSpecs (p : Product) : Specs :=
  let text := JsStr.lower (p.name ++ (' ' :: p.itemCode) ++ (' ' :: p.description.getD []))
  { viscosity := Rx.search viscReI text
    volume := Rx.search volReI text
    brand := JsStr.lower ((JsStr.splitSp p.name).headD [])
    category := p.category.map JsStr.lower
    grade := (Rx.search gradeReI text).map gradeG2
    application := Rx.search appReI text }

/-- `areProductsSimilar` of `place-order.tsx`: same viscosity AND (same
volume OR same application) AND different brand.  (The JavaScript `&&`
chains test truthiness of the extracted strings, which are never empty when
present, so presence is `isSome`.) -/
def areProductsSimilar (product1 product2 : Product) : Bool :=
  let specs1 := extractSpecs product1
  let specs2 := extractSpecs product2
  let sameViscosity := specs1.viscosity.isSome && specs2.viscosity.isSome &&
    specs1.viscosity == specs2.viscosity
  let sameVolume := specs1.volume.isSome && specs2.volume.isSome &&
    specs1.volume == specs2.volume
  let sameApplication := specs1.application.isSome && specs2.application.isSome &&
    specs1.application == specs2.application
  let differentBrand := specs1.brand != specs2.brand
  sameViscosity && (sameVolume || sameApplication) && differentBrand

/-- The running state of one scoring pass of `smartProductSearch`:
`maxScore` and `matchType`. -/
structure ScoreState where
  maxScore : Q
  matchType : String
deriving DecidableEq, Repr

/-- `matchType = matchType || tag`. -/
def mtOr (cur tag : String) : String := if cur = "" then tag else cur

/-- The `searchableText` of the scoring pass:
`[name, itemCode, description ?? "", category ?? ""].join(" ")`,
lowercased. -/
def searchableTextOf (p : Product) : List Char :=
  JsStr.lower (p.name ++ (' ' :: p.itemCode) ++ (' ' :: p.description.getD [])
    ++ (' ' :: p.category.getD []))

/-- The product's extracted OEM codes:
`extractOEMCodes(itemCode + " " + name + " " + (description ?? ""))`. -/
def productOEMCodesOf (p : Product) : List (List Char) :=
  extractOEMCodes (p.itemCode ++ (' ' :: p.name) ++ (' ' :: p.description.getD []))

/-- Tier 1, first check: the query code as a substring of the uppercased
item code scores `1.0` as `OEM_EXACT`. -/
def tier1Hit (p : Product) (st : ScoreState) (queryOEM : List Char) : ScoreState :=
  if JsStr.includes (JsStr.upper p.itemCode) queryOEM then
    { maxScore := Q.max st.maxScore 1.0, matchType := "OEM_EXACT" }
  else st

/-- Tier 1, second check (the body of the loop over the product's extracted
codes): a code similarity of at least `0.8` raises the score and overwrites
the match type. -/
def tier1Sim (queryOEM : List Char) (st : ScoreState) (productOEM : List Char) : ScoreState :=
  let similarity := isOEMSimilar queryOEM productOEM
  if Q.ble 0.8 similarity then
    { maxScore := Q.max st.maxScore similarity,
      matchType := if Q.beq similarity 1.0 then "OEM_EXACT" else "OEM_SIMILAR" }
  else st

/-- Tier 1, third check: a raw substring hit of the lowercased query code in
the searchable text contributes `0.7` as `OEM_PARTIAL` while the running
maximum is below `0.8`. -/
def tier1Raw (searchableText queryOEM : List Char) (st : ScoreState) : ScoreState :=
  if Q.blt st.maxScore 0.8 && JsStr.includes searchableText (JsStr.lower queryOEM) then
    { maxScore := Q.max st.maxScore 0.7, matchType := "OEM_PARTIAL" }
  else st

/-- The body of the per-query-code loop of scoring tier 1 (OEM codes): the
three checks in sequence. -/
def tier1Code (p : Product) (searchableText : List Char)
    (productOEMCodes : List (List Char)) (st : ScoreState)
    (queryOEM : List Char) : ScoreState :=
  tier1Raw searchableText queryOEM
    (productOEMCodes.foldl (tier1Sim queryOEM) (tier1Hit p st queryOEM))

/-- Scoring tier 1: OEM-code matches (run only when the query contains
extractable codes). -/
def tier1 (p : Product) (searchableText : List Char)
    (queryOEMCodes productOEMCodes : List (List Char)) (st : ScoreState) : ScoreState :=
  if 0 < queryOEMCodes.length then
    queryOEMCodes.foldl (tier1Code p searchableText productOEMCodes) st
  else st

/-- The body of the per-term loop of scoring tier 2 (exact term matches). -/
def tier2Term (p : Product) (searchableText : List Char) (st : ScoreState)
    (term : List Char) : ScoreState :=
  if 2 ≤ term.length then
    if JsStr.includes (JsStr.lower p.name) term then
      { maxScore := Q.max st.maxScore 0.85, matchType := mtOr st.matchType "NAME_EXACT" }
    else if JsStr.includes (JsStr.lower p.itemCode) term then
      { maxScore := Q.max st.maxScore 0.8, matchType := mtOr st.matchType "CODE_EXACT" }
    else if JsStr.includes searchableText term then
      { maxScore := Q.max st.maxScore 0.7, matchType := mtOr st.matchType "DESC_EXACT" }
    else st
  else st

/-- Scoring tier 2: exact term matches (guarded by `maxScore < 0.9`). -/
def tier2 (p : Product) (searchableText : List Char)
    (searchTerms : List (List Char)) (st : ScoreState) : ScoreState :=
  if Q.blt st.maxScore 0.9 then searchTerms.foldl (tier2Term p searchableText) st
  else st

/-- The body of the per-term loop of scoring tier 3 (fuzzy matches). -/
def tier3Term (p : Product) (st : ScoreState) (term : List Char) : ScoreState :=
  if 3 ≤ term.length then
    let nameScore := calculateSimilarity term (JsStr.lower p.name)
    let codeScore := calculateSimilarity term (JsStr.lower p.itemCode)
    let descScore := match p.description with
      | some d => calculateSimilarity term (JsStr.lower d)
      | none => 0
    let bestFuzzyScore := Q.max (Q.max (Q.mul nameScore 0.8) (Q.mul codeScore 0.9))
      (Q.mul descScore 0.6)
    if Q.blt st.maxScore bestFuzzyScore then
      { maxScore := bestFuzzyScore, matchType := mtOr st.matchType "FUZZY" }
    else st
  else st

/-- Scoring tier 3: fuzzy matches (guarded by `maxScore < 0.7`). -/
def tier3 (p : Product) (searchTerms : List (List Char)) (st : ScoreState) : ScoreState :=
  if Q.blt st.maxScore 0.7 then searchTerms.foldl (tier3Term p) st
  else st

/-- Tier 4, viscosity check. -/
def tier4Visc (searchableText queryLower : List Char) (st : ScoreState) : ScoreState :=
  match Rx.search viscRe queryLower with
  | some v =>
    if JsStr.includes searchableText v then
      { maxScore := Q.max st.maxScore 0.6, matchType := mtOr st.matchType "SPEC_VISCOSITY" }
    else st
  | none => st

/-- Tier 4, volume check. -/
def tier4Vol (searchableText queryLower : List Char) (st : ScoreState) : ScoreState :=
  match Rx.search volRe queryLower with
  | some v =>
    if JsStr.includes searchableText v then
      { maxScore := Q.max st.maxScore 0.5, matchType := mtOr st.matchType "SPEC_VOLUME" }
    else st
  | none => st

/-- Tier 4, grade check (capture group 2 of the grade pattern). -/
def tier4Grade (searchableText queryLower : List Char) (st : ScoreState) : ScoreState :=
  match Rx.search gradeReI queryLower with
  | some g =>
    if JsStr.includes searchableText (gradeG2 g) then
      { maxScore := Q.max st.maxScore 0.55, matchType := mtOr st.matchType "SPEC_GRADE" }
    else st
  | none => st

/-- Scoring tier 4: specification matches (guarded by `maxScore < 0.6`);
the viscosity, volume and grade checks run in that order, each raising the
running maximum. -/
def tier4 (searchableText queryLower : List Char) (st : ScoreState) : ScoreState :=
  if Q.blt st.maxScore 0.6 then
    tier4Grade searchableText queryLower
      (tier4Vol searchableText queryLower (tier4Visc searchableText queryLower st))
  else st

/-- A scored catalog entry of `smartProductSearch`. -/
structure ScoredItem where
  product : Product
  score : Q
  matchType : String
deriving DecidableEq, Repr

/-- The per-product scoring pass of `smartProductSearch`: the four tiers in
order, starting from score `0` and empty match type. -/
def scoreProduct (queryLower : List Char) (searchTerms queryOEMCodes : List (List Char))
    (p : Product) : ScoredItem :=
  let searchableText := searchableTextOf p
  let productOEMCodes := productOEMCodesOf p
  let st1 := tier1 p searchableText queryOEMCodes productOEMCodes ⟨0, ""⟩
  let st2 := tier2 p searchableText searchTerms st1
  let st3 := tier3 p searchTerms st2
  let st4 := tier4 searchableText queryLower st3
  { product := p, score := st4.maxScore, matchType := st4.matchType }

/-- The tie-break table of the sort comparator. -/
def typeOrder : List String :=
  ["OEM_EXACT", "OEM_SIMILAR", "NAME_EXACT", "CODE_EXACT", "OEM_PARTIAL",
    "DESC_EXACT", "SPEC_VISCOSITY", "FUZZY"]

/-- The sort comparator of `smartProductSearch` as a `≤`-style predicate
(`comparator(a, b) ≤ 0`): descending by score, ties broken ascending by
`typeOrder.indexOf(matchType)`. -/
def scoredLE (a b : ScoredItem) : Bool :=
  if Q.beq a.score b.score then
    JsStr.jsIndexOf typeOrder a.matchType ≤ JsStr.jsIndexOf typeOrder b.matchType
  else Q.blt b.score a.score

/-- The comparator as a relation, for sorting. -/
def scoredRel (a b : ScoredItem) : Prop := scoredLE a b = true

instance : DecidableRel scoredRel := fun a b => instDecidableEqBool (scoredLE a b) true

/-- `scored.sort(...)` — `Array.prototype.sort` is a stable sort (required
since ES2019), and a stable sort by a total preorder has a unique result,
so any stable sorting algorithm renders it; we use insertion sort, which
the kernel can evaluate. -/
def sortScored (l : List ScoredItem) : List ScoredItem := List.insertionSort scoredRel l

/-- `query.toLowerCase().trim()`. -/
def queryLowerOf (query : List Char) : List Char := JsStr.trim (JsStr.lower query)

/-- `queryLower.split(" ").filter(term => term.length > 1)`. -/
def searchTermsOf (query : List Char) : List (List Char) :=
  (JsStr.splitSp (queryLowerOf query)).filter (fun t => 1 < t.length)

/-- `extractOEMCodes(query)` (on the original-case query). -/
def queryOEMCodesOf (query : List Char) : List (List Char) :=
  extractOEMCodes query

/-- The `scored` array of `smartProductSearch` (before sorting). -/
def scoredOf (products : List Product) (query : List Char) : List ScoredItem :=
  products.map
    (scoreProduct (queryLowerOf query) (searchTermsOf query) (queryOEMCodesOf query))

/-- The `scored` array after the in-place sort. -/
def sortedOf (products : List Product) (query : List Char) : List ScoredItem :=
  sortScored (scoredOf products query)

/-- `goodMatches`: the scored entries with `score ≥ 0.4`, in sorted order. -/
def goodMatchesOf (products : List Product) (query : List Char) : List ScoredItem :=
  (sortedOf products query).filter (fun i => Q.ble 0.4 i.score)

/-- `potentialMatches`: the scored entries with `0.15 ≤ score < 0.4`, in
sorted order. -/
def potentialMatchesOf (products : List Product) (query : List Char) : List ScoredItem :=
  (sortedOf products query).filter (fun i => Q.ble 0.15 i.score && Q.blt i.score 0.4)

/-- The suggestions list under construction, together with the
`suggestionSet` of already-used product ids. -/
structure SugState where
  suggestions : List Product
  ids : List (List Char)
deriving DecidableEq, Repr

/-- Push a product unless its id is already in the set. -/
def pushSuggestion (s : SugState) (p : Product) : SugState :=
  if s.ids.contains p.id then s
  else { suggestions := s.suggestions ++ [p], ids := s.ids ++ [p.id] }

/-- The suggestions built when no good matches exist: the first five
potential matches, deduplicated by id. -/
def emptySuggestionsOf (products : List Product) (query : List Char) : SugState :=
  ((potentialMatchesOf products query).take 5).foldl
    (fun s item => pushSuggestion s item.product) ⟨[], []⟩

/-- The similar-product pass run when good matches exist: for each of the
top three matches, scan the sorted scored list and push products scoring
below `0.4` that are spec-compatible, capped at five suggestions. -/
def similarSuggestionsOf (products : List Product) (query : List Char) : SugState :=
  ((goodMatchesOf products query).take 3).foldl (fun s matchedItem =>
    (sortedOf products query).foldl (fun s item =>
      if Q.blt item.score 0.4 && decide (s.suggestions.length < 5) &&
          !(s.ids.contains item.product.id) &&
          areProductsSimilar matchedItem.product item.product then
        { suggestions := s.suggestions ++ [item.product],
          ids := s.ids ++ [item.product.id] }
      else s) s) ⟨[], []⟩

/-- The `suggestions` list of `smartProductSearch`: either the top potential
matches (no good matches), or similar products topped up from the potential
matches when fewer than three were found. -/
def suggestionsOf (products : List Product) (query : List Char) : List Product :=
  if (goodMatchesOf products query).length = 0 then
    (emptySuggestionsOf products query).suggestions
  else
    let s := similarSuggestionsOf products query
    if s.suggestions.length < 3 then
      (((potentialMatchesOf products query).take (3 - s.suggestions.length)).foldl
        (fun s item => pushSuggestion s item.product) s).suggestions
    else s.suggestions

/-- The result object of `smartProductSearch`.  The source's object literal
carries only `matches` and `suggestions`; reading any other property (such
as `noResultsMessage`) in JavaScript yields `undefined`, modelled as a
`none` field. -/
structure SearchOutput where
  «matches» : List Product
  suggestions : List Product
  noResultsMessage : Option (List Char)
deriving DecidableEq, Repr

/-- `smartProductSearch` of `place-order.tsx`. -/
def smartProductSearch (products : List Product) (query : List Char) : SearchOutput :=
  if JsStr.trim query = [] then
    { «matches» := products, suggestions := [], noResultsMessage := none }
  else
    { «matches» := (goodMatchesOf products query).map (fun i => i.product),
      suggestions := suggestionsOf products query,
      noResultsMessage := none }

end PlaceOrder

namespace PlaceOrder

/-- Written from the spec's words, for comparison with `areProductsSimilar`
(claim C5): the two products share an extracted viscosity or extracted
application, AND share a volume or share the application, AND have
different brand tokens. -/
def specCompatible (p1 p2 : Product) : Bool :=
  let s1 := extractSpecs p1
  let s2 := extractSpecs p2
  ((s1.viscosity.isSome && s2.viscosity.isSome && s1.viscosity == s2.viscosity) ||
    (s1.application.isSome && s2.application.isSome && s1.application == s2.application)) &&
  ((s1.volume.isSome && s2.volume.isSome && s1.volume == s2.volume) ||
    (s1.application.isSome && s2.application.isSome && s1.application == s2.application)) &&
  (s1.brand != s2.brand)

/-- Concrete catalog entry: two diesel 5-litre oils of different brands with
no viscosity grade in their text. -/
def pShellR : Product :=
  { id := ("s1").data, name := ("Shell diesel 5l").data, itemCode := ("X1").data,
    description := none, price := ("10").data, currency := ("MAD").data,
    stockQuantity := none, category := none, image := none }

/-- Concrete catalog entry paired with `pShellR`. -/
def pTotalR : Product :=
  { id := ("t1").data, name := ("Total diesel 5l").data, itemCode := ("Y1").data,
    description := none, price := ("10").data, currency := ("MAD").data,
    stockQuantity := none, category := none, image := none }

/-- Concrete catalog entry whose name fuzzily resembles the query `abcde`
(similarity 2/5, fuzzy score 0.32) and whose item code matches the term
`b1` of the query `ab1 b1` exactly. -/
def pCodeB1 : Product :=
  { id := ("p1").data, name := ("zz").data, itemCode := ("b1").data,
    description := none, price := ("10").data, currency := ("MAD").data,
    stockQuantity := none, category := none, image := none }

/-- Concrete catalog entry scoring in the low-confidence band `[0.15, 0.4)`
for the query `abcde`. -/
def pFuzzy : Product :=
  { id := ("f1").data, name := ("axxxe").data, itemCode := ("q9").data,
    description := none, price := ("10").data, currency := ("MAD").data,
    stockQuantity := none, category := none, image := none }

/-- The query (and item code) of claim C1. -/
def qexC : List Char := ("ABC12345").data

/-- Concrete catalog entry with item code `ABC12345` and an unremarkable
name. -/
def pPlain : Product :=
  { id := ("w1").data, name := ("Oil").data, itemCode := ("ABC12345").data,
    description := none, price := ("10").data, currency := ("MAD").data,
    stockQuantity := none, category := none, image := none }

/-- Concrete catalog entry with item code `ABC12345` whose name contains the
longer code `ABC123456`. -/
def pOem : Product :=
  { id := ("o1").data, name := ("ABC123456").data, itemCode := ("ABC12345").data,
    description := none, price := ("10").data, currency := ("MAD").data,
    stockQuantity := none, category := none, image := none }

end PlaceOrder

namespace Q

/-- `Math.min(a, b)`. -/
def min (a b : Q) : Q := if blt b a then b else a

end Q

namespace SmartSearch

/-- The `Product` interface of `smart-search.ts` (it additionally carries a
`brand`). -/
structure Product where
  id : List Char
  name : List Char
  itemCode : List Char
  description : Option (List Char)
  price : List Char
  currency : List Char
  stockQuantity : Option Int
  category : Option (List Char)
  brand : Option (List Char)
  image : Option (List Char)
deriving DecidableEq, Repr

/-- The optional translation table `t` (only the fields the module reads). -/
structure Trans where
  alternativeProduct : List Char
  noProductsFound : List Char
  tryDifferentSearchTermsOrAdjustFilters : List Char
  noExactMatchesFound : List Char
  hereAreSomeAlternatives : List Char
deriving DecidableEq, Repr

/-- The `SearchResult` interface. -/
structure SearchResult where
  product : Product
  similarity : Q
  matchType : String
  reason : Option (List Char)
deriving DecidableEq, Repr

/-- The `SmartSearchResult` interface; an absent `noResultsMessage` property
is `none`. -/
structure SmartSearchResult where
  results : List SearchResult
  suggestions : List SearchResult
  noResultsMessage : Option (List Char)
deriving DecidableEq, Repr

/-- `oilViscosityPatterns`. -/
def oilViscosityPatterns : List (List Char) :=
  [("0w20").data, ("0w30").data, ("0w40").data,
   ("5w20").data, ("5w30").data, ("5w40").data, ("5w50").data,
   ("10w30").data, ("10w40").data, ("10w50").data, ("10w60").data,
   ("15w40").data, ("15w50").data,
   ("20w50").data]

/-- `brandAlternatives` (an object literal; key insertion order preserved). -/
def brandAlternatives : List (List Char × List (List Char)) :=
  [(("total").data, [("afriquia").data, ("shell").data, ("mobil").data, ("castrol").data]),
   (("shell").data, [("total").data, ("afriquia").data, ("mobil").data, ("castrol").data]),
   (("mobil").data, [("total").data, ("shell").data, ("afriquia").data, ("castrol").data]),
   (("castrol").data, [("total").data, ("shell").data, ("afriquia").data, ("mobil").data]),
   (("afriquia").data, [("total").data, ("shell").data, ("mobil").data, ("castrol").data]),
   (("motul").data, [("total").data, ("shell").data, ("mobil").data, ("castrol").data]),
   (("elf").data, [("total").data, ("shell").data, ("mobil").data, ("castrol").data])]

/-- `productAlternatives`. -/
def productAlternatives : List (List Char × List (List Char)) :=
  [(("quartez").data, [("qualix").data, ("quartz").data, ("helix").data, ("magnatec").data]),
   (("qualix").data, [("quartez").data, ("quartz").data, ("helix").data, ("magnatec").data]),
   (("quartz").data, [("quartez").data, ("qualix").data, ("helix").data, ("magnatec").data]),
   (("helix").data, [("quartez").data, ("qualix").data, ("quartz").data, ("magnatec").data]),
   (("magnatec").data, [("quartez").data, ("qualix").data, ("quartz").data, ("helix").data])]

/-- `extractViscosity`: lowercase, strip all whitespace, and return the
first vocabulary grade (in vocabulary order) contained in the text. -/
def extractViscosity (text : List Char) : Option (List Char) :=
  let normalized := (JsStr.lower text).filter (fun c => !JsStr.isWs c)
  oilViscosityPatterns.find? (fun v => JsStr.includes normalized v)

/-- `extractBrand`: the first known brand (in key order) contained in the
lowercased text. -/
def extractBrand (text : List Char) : Option (List Char) :=
  let normalized := JsStr.lower text
  (brandAlternatives.map (fun kv => kv.1)).find? (fun b => JsStr.includes normalized b)

/-- `extractProductName`: the first known product token contained in the
lowercased text. -/
def extractProductName (text : List Char) : Option (List Char) :=
  let normalized := JsStr.lower text
  (productAlternatives.map (fun kv => kv.1)).find? (fun b => JsStr.includes normalized b)

/-- The recurrence of the matrix of `levenshteinDistance` in
`smart-search.ts` — identical in shape to the one in `place-order.tsx`
(unit costs, minimum of the three neighbours with a 0/1 substitution
indicator).  Fuelled to keep the recursion structural; fuel
`≥ a.length + b.length + 1` computes the full matrix value. -/
def levFuel : Nat → List Char → List Char → Nat
  | 0, _, _ => 0
  | _ + 1, [], b => b.length
  | _ + 1, a, [] => a.length
  | f + 1, x :: xs, y :: ys =>
    let indicator : Nat := if x = y then 0 else 1
    Nat.min (levFuel f (x :: xs) ys + 1)
      (Nat.min (levFuel f xs (y :: ys) + 1) (levFuel f xs ys + indicator))

/-- `levenshteinDistance` of `smart-search.ts`. -/
def levenshteinDistance (a b : List Char) : Nat :=
  levFuel (a.length + b.length + 1) a b

/-- `str.replace(new RegExp(pat, "g"), rep)` for a literal pattern: replace
every non-overlapping occurrence, scanning left to right.  The fuel is the
string length (each step consumes at least one character; all patterns used
are non-empty). -/
def replaceLit (pat rep : List Char) : Nat → List Char → List Char
  | 0, s => s
  | f + 1, s =>
    match s with
    | [] => []
    | c :: cs =>
      if pat.isPrefixOf (c :: cs) && decide (0 < pat.length) then
        rep ++ replaceLit pat rep f ((c :: cs).drop pat.length)
      else
        c :: replaceLit pat rep f cs

/-- The `phoneticMap` of `calculatePhoneticSimilarity`, in key order. -/
def phoneticMap : List (List Char × List Char) :=
  [(("ph").data, ("f").data), (("gh").data, ("f").data), (("ck").data, ("k").data),
   (("qu").data, ("kw").data), (("x").data, ("ks").data), (("z").data, ("s").data),
   (("c").data, ("k").data), (("y").data, ("i").data)]

/-- The `normalize` helper of `calculatePhoneticSimilarity`: lowercase, then
apply the eight global replacements in key order. -/
def phoneticNormalize (word : List Char) : List Char :=
  phoneticMap.foldl (fun s kv => replaceLit kv.1 kv.2 (s.length + 1) s) (JsStr.lower word)

/-- `calculatePhoneticSimilarity`. -/
def calculatePhoneticSimilarity (word1 word2 : List Char) : Q :=
  let norm1 := phoneticNormalize word1
  let norm2 := phoneticNormalize word2
  if norm1 = norm2 then 0.8
  else if JsStr.includes norm1 norm2 || JsStr.includes norm2 norm1 then 0.6
  else 0

/-- `calculateAIFuzzyScore`. -/
def calculateAIFuzzyScore (word1 word2 : List Char) : Q :=
  if word1.length < 3 || word2.length < 3 then 0
  else
    let distance := levenshteinDistance word1 word2
    let maxLen := Nat.max word1.length word2.length
    let similarity := Q.sub 1 (Q.div (Q.ofNat distance) (Q.ofNat maxLen))
    let phoneticSimilarity := calculatePhoneticSimilarity word1 word2
    Q.max (Q.mul similarity 0.7) (Q.mul phoneticSimilarity 0.3)

/-- The inner loop of `calculateSemanticMatch` over the text words, with its
early `break` on an exact word match. -/
def bestWordScore (qWord : List Char) : List (List Char) → Q → Q
  | [], best => best
  | tWord :: ts, best =>
    if tWord = qWord then 1
    else if JsStr.includes tWord qWord || JsStr.includes qWord tWord then
      bestWordScore qWord ts (Q.max best 0.8)
    else bestWordScore qWord ts (Q.max best (calculateAIFuzzyScore qWord tWord))

/-- `calculateSemanticMatch`. -/
def calculateSemanticMatch (query text : List Char) : Q :=
  if text = [] then 0
  else if JsStr.includes text query then 1
  else
    let queryWords := (JsStr.wsWords query).filter (fun w => 1 < w.length)
    let textWords := (JsStr.wsWords text).filter (fun w => 1 < w.length)
    let acc := queryWords.foldl (fun (acc : Q × Nat) qWord =>
      let best := bestWordScore qWord textWords 0
      if Q.blt 0.3 best then (Q.add acc.1 best, acc.2 + 1) else acc) (0, 0)
    if 0 < acc.2 then Q.div acc.1 (Q.ofNat queryWords.length) else 0

/-- The intent record of `recognizeIntent`. -/
structure Intent where
  type : String
  confidence : Q
  entities : List (List Char)
deriving DecidableEq, Repr

/-- The `intents` table of `recognizeIntent`, in key order:
(type, patterns, weight). -/
def intentsList : List (String × List (List Char) × Q) :=
  [("viscosity",
    ([("0w").data, ("5w").data, ("10w").data, ("15w").data, ("20w").data, ("sae").data],
      (0.9 : Q))),
   ("brand",
    ([("total").data, ("shell").data, ("mobil").data, ("castrol").data, ("motul").data,
      ("elf").data, ("afriquia").data], (0.8 : Q))),
   ("product_type",
    ([("oil").data, ("lubricant").data, ("grease").data, ("fluid").data, ("filter").data],
      (0.7 : Q))),
   ("capacity",
    ([("1l").data, ("5l").data, ("20l").data, ("208l").data, ("liter").data,
      ("litre").data], (0.6 : Q))),
   ("application",
    ([("engine").data, ("motor").data, ("transmission").data, ("hydraulic").data,
      ("gear").data], (0.7 : Q)))]

/-- `recognizeIntent`: keep the highest-confidence intent category, ties
resolved in favour of the earlier category. -/
def recognizeIntent (query : List Char) : Intent :=
  intentsList.foldl (fun best it =>
    let hits := it.2.1.filter (fun pat => JsStr.includes query pat)
    if 0 < hits.length then
      let confidence := Q.mul (Q.div (Q.ofNat hits.length) (Q.ofNat it.2.1.length)) it.2.2
      if Q.blt best.confidence confidence then ⟨it.1, confidence, hits⟩ else best
    else best) ⟨"general", 0, []⟩

/-- `calculateIntentScore`. -/
def calculateIntentScore (intent : Intent) (product : Product) : Q :=
  let productText := JsStr.lower (product.name ++ (' ' :: product.itemCode)
    ++ (' ' :: product.brand.getD []) ++ (' ' :: product.description.getD []))
  if intent.type = "brand" then
    if intent.entities.any (fun e =>
        JsStr.includes (JsStr.lower (product.brand.getD [])) e) then
      intent.confidence
    else 0
  else if intent.type = "viscosity" || intent.type = "product_type" ||
      intent.type = "capacity" || intent.type = "application" then
    if intent.entities.any (fun e => JsStr.includes productText e) then
      intent.confidence
    else 0
  else 0

/-- `calculateAISimilarity`. -/
def calculateAISimilarity (query : List Char) (product : Product) : Q :=
  let queryLower := JsStr.trim (JsStr.lower query)
  if queryLower = [] then 0
  else
    let productName := JsStr.lower product.name
    let productCode := JsStr.lower product.itemCode
    let productBrand := JsStr.lower (product.brand.getD [])
    let productDescription := JsStr.lower (product.description.getD [])
    let productCategory := JsStr.lower (product.category.getD [])
    let intent := recognizeIntent queryLower
    let s1 := Q.add 0 (Q.mul (calculateIntentScore intent product) 0.4)
    let fieldName := Q.mul (calculateSemanticMatch queryLower productName) 0.9
    let fieldCode := Q.mul (calculateSemanticMatch queryLower productCode) 0.85
    let fieldBrand := Q.mul (calculateSemanticMatch queryLower productBrand) 0.7
    let fieldDescription := Q.mul (calculateSemanticMatch queryLower productDescription) 0.75
    let fieldCategory := Q.mul (calculateSemanticMatch queryLower productCategory) 0.6
    let best := Q.max (Q.max (Q.max (Q.max fieldName fieldCode) fieldBrand)
      fieldDescription) fieldCategory
    let s2 := Q.add s1 (Q.mul best 0.6)
    Q.min s2 1

/-- The leftmost match of `/(\d+)w(\d+)/` as a pair of parsed numbers (the
`parse` helper of `calculateViscosityCompatibility`). -/
def parseVisc : List Char → Option (Nat × Nat)
  | [] => none
  | c :: cs =>
    if c.isDigit then
      let rest := (c :: cs).dropWhile Char.isDigit
      match rest with
      | 'w' :: r2 =>
        let d2 := r2.takeWhile Char.isDigit
        if 0 < d2.length then
          some (((c :: cs).takeWhile Char.isDigit).foldl
              (fun n ch => n * 10 + (ch.toNat - 48)) 0,
            d2.foldl (fun n ch => n * 10 + (ch.toNat - 48)) 0)
        else parseVisc cs
      | _ => parseVisc cs
    else parseVisc cs

/-- `calculateViscosityCompatibility`. -/
def calculateViscosityCompatibility (v1 v2 : List Char) : Q :=
  if v1 = v2 then 0.9
  else
    match parseVisc v1, parseVisc v2 with
    | some p1, some p2 =>
      let winterDiff := Nat.max p1.1 p2.1 - Nat.min p1.1 p2.1
      let hotDiff := Nat.max p1.2 p2.2 - Nat.min p1.2 p2.2
      if winterDiff ≤ 5 && hotDiff ≤ 10 then 0.7
      else if winterDiff ≤ 10 && hotDiff ≤ 20 then 0.5
      else 0
    | _, _ => 0

/-- `calculateBrandCompatibility`. -/
def calculateBrandCompatibility (b1 b2 : List Char) : Q :=
  match brandAlternatives.find? (fun kv => kv.1 = b1) with
  | some kv =>
    if kv.2.contains b2 then 0.6
    else
      let premium := [("total").data, ("shell").data, ("mobil").data, ("castrol").data,
        ("motul").data]
      if premium.contains b1 && premium.contains b2 then 0.4 else 0.2
  | none =>
    let premium := [("total").data, ("shell").data, ("mobil").data, ("castrol").data,
      ("motul").data]
    if premium.contains b1 && premium.contains b2 then 0.4 else 0.2

/-- `calculateCompatibilityScore`. -/
def calculateCompatibilityScore (query : List Char) (product : Product) : Q :=
  let queryViscosity := extractViscosity query
  let productViscosity := extractViscosity (product.name ++ (' ' :: product.itemCode))
  match queryViscosity, productViscosity with
  | some qv, some pv => calculateViscosityCompatibility qv pv
  | _, _ =>
    let queryBrand := extractBrand query
    let productBrand := JsStr.lower (product.brand.getD [])
    match queryBrand with
    | some qb => if productBrand ≠ [] then calculateBrandCompatibility qb productBrand else 0
    | none => 0

/-- `generateAIReason`. -/
def generateAIReason (query : List Char) (product : Product) (intent : Intent)
    (t : Option Trans) : List Char :=
  match t with
  | some tr => tr.alternativeProduct ++ (' ' :: product.name)
  | none =>
    match extractViscosity query, extractViscosity product.name with
    | some _, some pv =>
      ("Compatible ").data ++ JsStr.upper pv ++ (" alternative").data
    | _, _ =>
      if intent.type = "brand" then
        let b := product.brand.getD []
        ("Alternative from ").data ++ (if b = [] then ("another brand").data else b)
      else ("AI-suggested alternative: ").data ++ product.name

/-- `calculateAIAlternativeScore`. -/
def calculateAIAlternativeScore (query : List Char) (product : Product)
    (intent : Intent) : Q :=
  let s1 := Q.add 0 (Q.mul (calculateIntentScore intent product) 0.4)
  let semanticScore := calculateSemanticMatch query
    (product.name ++ (' ' :: product.description.getD []))
  let s2 := Q.add s1 (Q.mul semanticScore 0.3)
  let compatibilityScore := calculateCompatibilityScore query product
  let s3 := Q.add s2 (Q.mul compatibilityScore 0.3)
  Q.min s3 0.8

/-- The comparator `(a, b) => b.similarity - a.similarity` as a `≤`-style
relation. -/
def srRel (a b : SearchResult) : Prop := Q.ble b.similarity a.similarity = true

instance : DecidableRel srRel :=
  fun a b => instDecidableEqBool (Q.ble b.similarity a.similarity) true

/-- A stable sort by descending similarity (see `PlaceOrder.sortScored`). -/
def sortResults (l : List SearchResult) : List SearchResult :=
  List.insertionSort srRel l

/-- `findAIAlternatives`. -/
def findAIAlternatives (query : List Char) (products : List Product)
    (t : Option Trans) : List SearchResult :=
  let intent := recognizeIntent (JsStr.lower query)
  let alternatives := (products.map (fun product =>
      ({ product := product,
         similarity := calculateAIAlternativeScore query product intent,
         matchType := "alternative",
         reason := some (generateAIReason query product intent t) } : SearchResult))).filter
    (fun r => Q.blt 0.4 r.similarity)
  (sortResults alternatives).take 5

/-- The no-products message, with and without a translation table. -/
def noProductsMsg (t : Option Trans) (query : List Char) : List Char :=
  match t with
  | some tr => tr.noProductsFound ++ (' ' :: '"' :: (query ++ ('"' :: '.' :: ' ' ::
      tr.tryDifferentSearchTermsOrAdjustFilters)))
  | none => ("No products found for \"").data ++ query ++
      ("\". Try searching with different keywords or check the filters.").data

/-- The no-exact-matches message. -/
def noExactMsg (t : Option Trans) (query : List Char) : List Char :=
  match t with
  | some tr => tr.noExactMatchesFound ++ (' ' :: '"' :: (query ++ ('"' :: '.' :: ' ' ::
      tr.hereAreSomeAlternatives)))
  | none => ("No exact matches found for \"").data ++ query ++
      ("\". Here are some alternatives:").data

/-- `smartSearch` of `smart-search.ts`. -/
def smartSearch (query : List Char) (products : List Product)
    (t : Option Trans) : SmartSearchResult :=
  if JsStr.trim query = [] then
    { results := products.map (fun p =>
        { product := p, similarity := 1, matchType := "exact", reason := none }),
      suggestions := [], noResultsMessage := none }
  else
    let directResults := sortResults ((products.map (fun product =>
        ({ product := product,
           similarity := calculateAISimilarity query product,
           matchType := "exact", reason := none } : SearchResult))).filter
      (fun r => Q.blt 0.2 r.similarity))
    let goodDirect := match directResults with
      | r :: _ => Q.blt 0.5 r.similarity
      | [] => false
    if goodDirect then
      { results := directResults, suggestions := [], noResultsMessage := none }
    else
      let alternatives := findAIAlternatives query products t
      let allResults := sortResults (directResults ++ alternatives)
      if allResults = [] then
        { results := [], suggestions := [],
          noResultsMessage := some (noProductsMsg t query) }
      else
        let exactMatches := allResults.filter (fun r =>
          r.matchType == "exact" && Q.blt 0.4 r.similarity)
        let suggestions := allResults.filter (fun r =>
          r.matchType == "alternative" || Q.ble r.similarity 0.4)
        { results := if 0 < exactMatches.length then exactMatches else allResults.take 6,
          suggestions := suggestions.take 3,
          noResultsMessage :=
            if exactMatches.length = 0 && decide (0 < suggestions.length) then
              some (noExactMsg t query)
            else none }

/-- Concrete catalog entry sharing nothing with the query `vvvv`. -/
def spKkkk : Product :=
  { id := ("k1").data, name := ("kkkk").data, itemCode := ("kkkk").data,
    description := none, price := ("10").data, currency := ("MAD").data,
    stockQuantity := none, category := none, brand := none, image := none }

end SmartSearch

/-! ### Properties of the score representation -/

namespace Q

theorem val_den_pos (q : Q) : (0 : ℚ) < (q.d1 : ℚ) + 1 := by positivity

theorem val_ble {a b : Q} : ble a b = true ↔ a.val ≤ b.val := by
  rw [ble, val, val, div_le_div_iff₀ (val_den_pos a) (val_den_pos b), decide_eq_true_eq]
  constructor <;> intro h
  · exact_mod_cast h
  · exact_mod_cast h

theorem val_blt {a b : Q} : blt a b = true ↔ a.val < b.val := by
  rw [blt, val, val, div_lt_div_iff₀ (val_den_pos a) (val_den_pos b), decide_eq_true_eq]
  constructor <;> intro h
  · exact_mod_cast h
  · exact_mod_cast h

theorem val_beq {a b : Q} : beq a b = true ↔ a.val = b.val := by
  rw [beq, val, val, div_eq_div_iff (ne_of_gt (val_den_pos a)) (ne_of_gt (val_den_pos b)),
    beq_iff_eq]
  constructor <;> intro h
  · exact_mod_cast h
  · exact_mod_cast h

theorem d1_cast (a b : Q) :
    (((a.d1 + 1) * (b.d1 + 1) - 1 : Nat) : ℚ) + 1 = ((a.d1 : ℚ) + 1) * ((b.d1 : ℚ) + 1) := by
  have h : (a.d1 + 1) * (b.d1 + 1) - 1 + 1 = (a.d1 + 1) * (b.d1 + 1) := by
    have h1 : 1 ≤ (a.d1 + 1) * (b.d1 + 1) := Nat.one_le_iff_ne_zero.mpr (by positivity)
    omega
  have h2 := congrArg (Nat.cast : Nat → ℚ) h
  push_cast at h2
  linarith [h2]

theorem val_mul (a b : Q) : (mul a b).val = a.val * b.val := by
  rw [mul, val, val, val]
  show ((a.num * b.num : Int) : ℚ) / _ = _
  rw [d1_cast a b]
  push_cast
  rw [div_mul_div_comm]

theorem val_add (a b : Q) : (add a b).val = a.val + b.val := by
  rw [add, val, val, val]
  show ((_ : Int) : ℚ) / _ = _
  rw [d1_cast a b, div_add_div _ _ (ne_of_gt (val_den_pos a)) (ne_of_gt (val_den_pos b))]
  push_cast
  ring_nf

theorem val_sub (a b : Q) : (sub a b).val = a.val - b.val := by
  rw [sub, val, val, val]
  show ((_ : Int) : ℚ) / _ = _
  rw [d1_cast a b, div_sub_div _ _ (ne_of_gt (val_den_pos a)) (ne_of_gt (val_den_pos b))]
  push_cast
  ring_nf

theorem val_div (a b : Q) (h : 0 < b.num) : (div a b).val = a.val / b.val := by
  rw [div, val, val, val]
  show ((_ : Int) : ℚ) / _ = _
  have htn : (b.num.toNat : ℚ) = (b.num : ℚ) := by
    exact_mod_cast congrArg (Int.cast : Int → ℚ) (Int.toNat_of_nonneg h.le)
  have hd : (((a.d1 + 1) * b.num.toNat - 1 : Nat) : ℚ) + 1 = ((a.d1 : ℚ) + 1) * (b.num : ℚ) := by
    have h1 : 1 ≤ (a.d1 + 1) * b.num.toNat := by
      have h0 : 0 < b.num.toNat := by omega
      exact Nat.one_le_iff_ne_zero.mpr (by positivity)
    have h2 : (a.d1 + 1) * b.num.toNat - 1 + 1 = (a.d1 + 1) * b.num.toNat := by omega
    have h3 := congrArg (Nat.cast : Nat → ℚ) h2
    push_cast at h3
    rw [htn] at h3
    linarith [h3]
  rw [hd]
  have hbne : (b.num : ℚ) ≠ 0 := by exact_mod_cast h.ne'
  have hane : ((a.d1 : ℚ) + 1) ≠ 0 := ne_of_gt (val_den_pos a)
  have hbdne : ((b.d1 : ℚ) + 1) ≠ 0 := ne_of_gt (val_den_pos b)
  field_simp
  try push_cast
  try ring

theorem val_max (a b : Q) : (max a b).val = Max.max a.val b.val := by
  rw [max]
  by_cases h : blt a b = true
  · rw [if_pos h, max_eq_right (le_of_lt (val_blt.mp h))]
  · have := mt val_blt.mpr (fun hv => h (by simpa using hv))
    rw [if_neg (by simpa using h), max_eq_left (not_lt.mp (by simpa using this))]

theorem val_ofNat (n : Nat) : (ofNat n).val = n := by
  rw [ofNat, val]
  norm_num

theorem val_one : (1 : Q).val = 1 := by
  show (ofNat 1).val = 1
  rw [val_ofNat]
  norm_num

theorem val_zero : (0 : Q).val = 0 := by
  show (ofNat 0).val = 0
  rw [val_ofNat]
  norm_num

theorem val_dec09 : (0.9 : Q).val = 9/10 := by
  show Q.val ⟨9, 9⟩ = 9/10
  rw [val]
  norm_num

end Q

/-! ### The string-similarity primitives -/

namespace Part004

theorem levFuelP4_le_max (f : Nat) : ∀ a b : List Char,
    levFuel f a b ≤ Nat.max a.length b.length := by
  induction f with
  | zero => intro a b; simp [levFuel]
  | succ f ih =>
    intro a b
    match a, b with
    | [], b => simp [levFuel]
    | x :: xs, [] => simp [levFuel]
    | x :: xs, y :: ys =>
      have h1 := ih xs ys
      have hmax : Nat.max (x :: xs).length (y :: ys).length
          = Nat.max xs.length ys.length + 1 := by
        simp only [List.length_cons]
        exact max_add_add_right _ _ _
      rw [hmax]
      simp only [levFuel]
      split
      · omega
      · calc Nat.min (levFuel f xs ys + 1)
              (Nat.min (levFuel f (x :: xs) ys + 1) (levFuel f xs (y :: ys) + 1))
            ≤ levFuel f xs ys + 1 := Nat.min_le_left _ _
          _ ≤ Nat.max xs.length ys.length + 1 := by omega

theorem levenshtein_le_max (a b : List Char) :
    levenshtein a b ≤ Nat.max a.length b.length :=
  levFuelP4_le_max _ a b

theorem levenshtein_nil_left (b : List Char) : levenshtein [] b = b.length := by
  simp [levenshtein, levFuel]

theorem levenshtein_nil_right (a : List Char) : levenshtein a [] = a.length := by
  cases a <;> simp [levenshtein, levFuel]

theorem calcSimP4_val_nonneg_le_one (a b : List Char) :
    0 ≤ (calculateSimilarity a b).val ∧ (calculateSimilarity a b).val ≤ 1 := by
  simp only [calculateSimilarity]
  split
  · rw [Q.val_one]; norm_num
  · rename_i hm
    have hmpos : 0 < Nat.max a.length b.length := Nat.pos_of_ne_zero hm
    have hnum : (0 : Int) < (Q.ofNat (Nat.max a.length b.length)).num := by
      show (0 : Int) < ((Nat.max a.length b.length : Nat) : Int)
      exact_mod_cast hmpos
    rw [Q.val_sub, Q.val_div _ _ hnum, Q.val_ofNat, Q.val_ofNat, Q.val_one]
    have hle : (levenshtein a b : ℚ) ≤ (Nat.max a.length b.length : ℚ) := by
      exact_mod_cast levenshtein_le_max a b
    have hpos : (0 : ℚ) < (Nat.max a.length b.length : ℚ) := by exact_mod_cast hmpos
    constructor
    · have := (div_le_one hpos).mpr hle
      linarith
    · have : 0 ≤ (levenshtein a b : ℚ) / (Nat.max a.length b.length : ℚ) := by positivity
      linarith

end Part004

namespace PlaceOrder

theorem levFuel_symm (f : Nat) : ∀ a b : List Char, levFuel f a b = levFuel f b a := by
  induction f with
  | zero => intro a b; simp [levFuel]
  | succ f ih =>
    intro a b
    match a, b with
    | [], [] => simp [levFuel]
    | [], y :: ys => simp [levFuel]
    | x :: xs, [] => simp [levFuel]
    | x :: xs, y :: ys =>
      simp only [levFuel]
      rw [ih (x :: xs) ys, ih xs (y :: ys), ih xs ys]
      have hc : (if x = y then (0 : Nat) else 1) = (if y = x then (0 : Nat) else 1) := by
        by_cases h : x = y
        · simp [h]
        · have h2 : ¬ y = x := fun hyx => h hyx.symm
          simp [h, h2]
      rw [hc]
      exact min_left_comm _ _ _

theorem lev_symm (a b : List Char) : lev a b = lev b a := by
  rw [lev, lev, Nat.add_comm b.length a.length, levFuel_symm]

theorem levFuel_le_max (f : Nat) : ∀ a b : List Char,
    levFuel f a b ≤ Nat.max a.length b.length := by
  induction f with
  | zero => intro a b; simp [levFuel]
  | succ f ih =>
    intro a b
    match a, b with
    | [], b => simp [levFuel]
    | x :: xs, [] => simp [levFuel]
    | x :: xs, y :: ys =>
      have h1 := ih xs ys
      have hmax : Nat.max (x :: xs).length (y :: ys).length
          = Nat.max xs.length ys.length + 1 := by
        simp only [List.length_cons]
        exact max_add_add_right _ _ _
      rw [hmax]
      simp only [levFuel]
      have hc : (if x = y then (0 : Nat) else 1) ≤ 1 := by split <;> omega
      calc Nat.min (levFuel f (x :: xs) ys + 1)
            (Nat.min (levFuel f xs (y :: ys) + 1)
              (levFuel f xs ys + if x = y then 0 else 1))
          ≤ Nat.min (levFuel f xs (y :: ys) + 1)
              (levFuel f xs ys + if x = y then 0 else 1) := Nat.min_le_right _ _
        _ ≤ levFuel f xs ys + (if x = y then 0 else 1) := Nat.min_le_right _ _
        _ ≤ Nat.max xs.length ys.length + 1 := by omega

theorem lev_le_max (a b : List Char) : lev a b ≤ Nat.max a.length b.length :=
  levFuel_le_max _ a b

theorem calcSim_symm (a b : List Char) :
    calculateSimilarity a b = calculateSimilarity b a := by
  simp only [calculateSimilarity]
  by_cases h1 : JsStr.lower a = JsStr.lower b
  · rw [h1]
  · have h2 : ¬ JsStr.lower b = JsStr.lower a := fun e => h1 e.symm
    have hor : (JsStr.includes (JsStr.lower a) (JsStr.lower b) ||
          JsStr.includes (JsStr.lower b) (JsStr.lower a))
        = (JsStr.includes (JsStr.lower b) (JsStr.lower a) ||
          JsStr.includes (JsStr.lower a) (JsStr.lower b)) := Bool.or_comm _ _
    rw [if_neg h1, if_neg h2, hor]
    by_cases h3 :
        (JsStr.includes (JsStr.lower b) (JsStr.lower a) ||
          JsStr.includes (JsStr.lower a) (JsStr.lower b)) = true
    · rw [if_pos h3, if_pos h3]
    · have hmx : Nat.max (JsStr.lower a).length (JsStr.lower b).length
          = Nat.max (JsStr.lower b).length (JsStr.lower a).length := Nat.max_comm _ _
      rw [if_neg h3, if_neg h3, lev_symm, hmx]

theorem calcSim_val_nonneg_le_one (a b : List Char) :
    0 ≤ (calculateSimilarity a b).val ∧ (calculateSimilarity a b).val ≤ 1 := by
  simp only [calculateSimilarity]
  split
  · rw [Q.val_one]; norm_num
  · rename_i hne
    split
    · rw [Q.val_dec09]; norm_num
    · set s1 := JsStr.lower a
      set s2 := JsStr.lower b
      have hmpos : 0 < Nat.max s1.length s2.length := by
        rcases Nat.eq_zero_or_pos (Nat.max s1.length s2.length) with h0 | h
        · exfalso
          have h1 : s1.length ≤ 0 ∧ s2.length ≤ 0 := Nat.max_le.mp (Nat.le_of_eq h0)
          have e1 := List.eq_nil_of_length_eq_zero (Nat.le_zero.mp h1.1)
          have e2 := List.eq_nil_of_length_eq_zero (Nat.le_zero.mp h1.2)
          exact hne (by rw [e1, e2])
        · exact h
      have hnum : (0 : Int) < (Q.ofNat (Nat.max s1.length s2.length)).num := by
        show (0 : Int) < ((Nat.max s1.length s2.length : Nat) : Int)
        exact_mod_cast hmpos
      rw [Q.val_sub, Q.val_div _ _ hnum, Q.val_ofNat, Q.val_ofNat, Q.val_one]
      have hle : (lev s1 s2 : ℚ) ≤ (Nat.max s1.length s2.length : ℚ) := by
        exact_mod_cast lev_le_max s1 s2
      have hpos : (0 : ℚ) < (Nat.max s1.length s2.length : ℚ) := by exact_mod_cast hmpos
      constructor
      · have := (div_le_one hpos).mpr hle
        linarith
      · have : 0 ≤ (lev s1 s2 : ℚ) / (Nat.max s1.length s2.length : ℚ) := by positivity
        linarith

end PlaceOrder

/-- Auxiliary: the empty string is a substring of every string. -/
theorem JsStr.includes_nil (s : List Char) : JsStr.includes s [] = true := by
  rw [JsStr.includes.eq_def]
  simp [List.isPrefixOf]

/-- Auxiliary: `lower` sends the empty string, and only it, to the empty
string. -/
theorem JsStr.lower_eq_nil_iff (s : List Char) : JsStr.lower s = [] ↔ s = [] := by
  rw [JsStr.lower]
  simp

/-- C2, counterexample.  The claim asserts that the similarity primitive of
`place-order.tsx` returns `0.0` when exactly one input is empty; in fact the
containment branch fires (the empty string is a substring of `"a"`), so
`calculateSimilarity("", "a") = 0.9 ≠ 0`. -/
theorem claimC2_counterexample :
    (PlaceOrder.calculateSimilarity [] (("a").data)).val = 9/10 ∧ (9/10 : ℚ) ≠ 0 := by
  constructor
  · have h : PlaceOrder.calculateSimilarity [] (("a").data) = ⟨9, 9⟩ := by decide
    rw [h, Q.val]
    norm_num
  · norm_num

/-- C2, amended.  Both similarity primitives map two empty strings to `1.0`
without error; when exactly one input is empty the standalone
(`part_004`) primitive returns `0.0` as the claim states, while the
`place-order.tsx` primitive returns `0.9` through its containment branch. -/
theorem claimC2_amended : ∀ a b : List Char,
    ((a = [] ∧ b = []) →
      (Part004.calculateSimilarity a b).val = 1 ∧
        (PlaceOrder.calculateSimilarity a b).val = 1)
    ∧ ((a = [] ∧ b ≠ [] ∨ a ≠ [] ∧ b = []) →
      (Part004.calculateSimilarity a b).val = 0 ∧
        (PlaceOrder.calculateSimilarity a b).val = 9/10) := by
  have part004nil : ∀ c : List Char, c ≠ [] →
      (Part004.calculateSimilarity [] c).val = 0 ∧
        (Part004.calculateSimilarity c []).val = 0 := by
    intro c hc
    have hlen : c.length ≠ 0 := fun h => hc (List.eq_nil_of_length_eq_zero h)
    have hnum : (0 : Int) < (Q.ofNat c.length).num := by
      show (0 : Int) < ((c.length : Nat) : Int)
      omega
    have hq : (c.length : ℚ) ≠ 0 := by exact_mod_cast hlen
    constructor
    · rw [Part004.calculateSimilarity]
      simp only [List.length_nil, Nat.max_def]
      rw [if_pos (Nat.zero_le _), if_neg hlen, Part004.levenshtein_nil_left,
        Q.val_sub, Q.val_div _ _ hnum, Q.val_ofNat, Q.val_one]
      field_simp
    · rw [Part004.calculateSimilarity]
      simp only [List.length_nil, Nat.max_def]
      have hz : ¬ c.length ≤ 0 := by omega
      rw [if_neg hz, if_neg hlen, Part004.levenshtein_nil_right,
        Q.val_sub, Q.val_div _ _ hnum, Q.val_ofNat, Q.val_one]
      field_simp
  have poNil : ∀ c : List Char, c ≠ [] →
      (PlaceOrder.calculateSimilarity [] c).val = 9/10 := by
    intro c hc
    simp only [PlaceOrder.calculateSimilarity]
    have hlc : JsStr.lower ([] : List Char) = [] := rfl
    have hne : ¬ JsStr.lower [] = JsStr.lower c := by
      rw [hlc]
      intro h
      exact hc ((JsStr.lower_eq_nil_iff c).mp h.symm)
    rw [if_neg hne, hlc]
    have hor : (JsStr.includes [] (JsStr.lower c) || JsStr.includes (JsStr.lower c) []) = true := by
      rw [JsStr.includes_nil, Bool.or_true]
    rw [if_pos hor, Q.val_dec09]
  intro a b
  constructor
  · rintro ⟨rfl, rfl⟩
    refine ⟨?_, ?_⟩
    · rw [show Part004.calculateSimilarity [] [] = 1 from by decide, Q.val_one]
    · rw [show PlaceOrder.calculateSimilarity [] [] = 1 from by decide, Q.val_one]
  · rintro (⟨rfl, hb⟩ | ⟨ha, rfl⟩)
    · exact ⟨(part004nil b hb).1, poNil b hb⟩
    · refine ⟨(part004nil a ha).2, ?_⟩
      rw [PlaceOrder.calcSim_symm]
      exact poNil a ha

/-- C2, witness for the amended theorem at the inputs `("", "a")` and
`("", "")`. -/
theorem claimC2_witness :
    ((Part004.calculateSimilarity [] (("a").data)).val = 0 ∧
      (PlaceOrder.calculateSimilarity [] (("a").data)).val = 9/10) ∧
    ((Part004.calculateSimilarity ([] : List Char) []).val = 1 ∧
      (PlaceOrder.calculateSimilarity ([] : List Char) []).val = 1) :=
  ⟨(claimC2_amended [] (("a").data)).2 (Or.inl ⟨rfl, by decide⟩),
    (claimC2_amended [] []).1 ⟨rfl, rfl⟩⟩

/-- C8 (confirmed): the similarity primitive of `place-order.tsx` is
symmetric — `calculateSimilarity(a, b) = calculateSimilarity(b, a)` for all
strings `a`, `b`. -/
theorem claimC8 : ∀ a b : List Char,
    PlaceOrder.calculateSimilarity a b = PlaceOrder.calculateSimilarity b a :=
  PlaceOrder.calcSim_symm

/-- C9 (confirmed): both similarity primitives are bounded — every returned
value lies in `[0, 1]`; in particular the normalised Levenshtein branch
`1 - distance/maxLength` is never negative and never exceeds `1`. -/
theorem claimC9 : ∀ a b : List Char,
    (0 ≤ (PlaceOrder.calculateSimilarity a b).val ∧
      (PlaceOrder.calculateSimilarity a b).val ≤ 1) ∧
    (0 ≤ (Part004.calculateSimilarity a b).val ∧
      (Part004.calculateSimilarity a b).val ≤ 1) :=
  fun a b => ⟨PlaceOrder.calcSim_val_nonneg_le_one a b,
    Part004.calcSimP4_val_nonneg_le_one a b⟩

/-! ### Score literals -/

namespace Q

theorem val_lit0 : (0 : Q).val = 0 := val_zero

theorem val_lit1 : (1 : Q).val = 1 := val_one

theorem val_lit10 : (1.0 : Q).val = 1 := by
  show Q.val ⟨10, 9⟩ = 1
  rw [val]
  norm_num

theorem val_lit09 : (0.9 : Q).val = 9/10 := val_dec09

theorem val_lit085 : (0.85 : Q).val = 17/20 := by
  show Q.val ⟨85, 99⟩ = 17/20
  rw [val]
  norm_num

theorem val_lit08 : (0.8 : Q).val = 4/5 := by
  show Q.val ⟨8, 9⟩ = 4/5
  rw [val]
  norm_num

theorem val_lit07 : (0.7 : Q).val = 7/10 := by
  show Q.val ⟨7, 9⟩ = 7/10
  rw [val]
  norm_num

theorem val_lit06 : (0.6 : Q).val = 3/5 := by
  show Q.val ⟨6, 9⟩ = 3/5
  rw [val]
  norm_num

theorem val_lit055 : (0.55 : Q).val = 11/20 := by
  show Q.val ⟨55, 99⟩ = 11/20
  rw [val]
  norm_num

theorem val_lit05 : (0.5 : Q).val = 1/2 := by
  show Q.val ⟨5, 9⟩ = 1/2
  rw [val]
  norm_num

theorem val_lit04 : (0.4 : Q).val = 2/5 := by
  show Q.val ⟨4, 9⟩ = 2/5
  rw [val]
  norm_num

theorem val_lit015 : (0.15 : Q).val = 3/20 := by
  show Q.val ⟨15, 99⟩ = 3/20
  rw [val]
  norm_num

end Q

/-! ### The sort of the scoring pass -/

namespace PlaceOrder

/-- Value-level reading of the sort predicate. -/
theorem scoredLE_iff {a b : ScoredItem} : scoredLE a b = true ↔
    (b.score.val < a.score.val ∨
      (a.score.val = b.score.val ∧
        JsStr.jsIndexOf typeOrder a.matchType ≤ JsStr.jsIndexOf typeOrder b.matchType)) := by
  rw [scoredLE]
  by_cases h : Q.beq a.score b.score = true
  · have hv := Q.val_beq.mp h
    rw [if_pos h]
    constructor
    · intro hle
      exact Or.inr ⟨hv, by exact_mod_cast of_decide_eq_true hle⟩
    · intro hor
      rcases hor with hlt | ⟨_, hidx⟩
      · exact absurd hv (ne_of_gt hlt)
      · exact decide_eq_true hidx
  · have hv : a.score.val ≠ b.score.val := fun he => h (Q.val_beq.mpr he)
    rw [if_neg h]
    constructor
    · intro hlt
      exact Or.inl (Q.val_blt.mp hlt)
    · intro hor
      rcases hor with hlt | ⟨he, _⟩
      · exact Q.val_blt.mpr hlt
      · exact absurd he hv

theorem scoredRel_iff {a b : ScoredItem} : scoredRel a b ↔
    (b.score.val < a.score.val ∨
      (a.score.val = b.score.val ∧
        JsStr.jsIndexOf typeOrder a.matchType ≤ JsStr.jsIndexOf typeOrder b.matchType)) :=
  scoredLE_iff

theorem scoredRel_total (a b : ScoredItem) : scoredRel a b ∨ scoredRel b a := by
  rw [scoredRel_iff, scoredRel_iff]
  rcases lt_trichotomy a.score.val b.score.val with h | h | h
  · exact Or.inr (Or.inl h)
  · rcases le_total (JsStr.jsIndexOf typeOrder a.matchType)
        (JsStr.jsIndexOf typeOrder b.matchType) with hi | hi
    · exact Or.inl (Or.inr ⟨h, hi⟩)
    · exact Or.inr (Or.inr ⟨h.symm, hi⟩)
  · exact Or.inl (Or.inl h)

theorem scoredRel_trans {a b c : ScoredItem} (h1 : scoredRel a b) (h2 : scoredRel b c) :
    scoredRel a c := by
  rw [scoredRel_iff] at h1 h2 ⊢
  rcases h1 with h1 | ⟨h1e, h1i⟩ <;> rcases h2 with h2 | ⟨h2e, h2i⟩
  · exact Or.inl (lt_trans h2 h1)
  · exact Or.inl (h2e ▸ h1)
  · exact Or.inl (h1e.symm ▸ h2)
  · exact Or.inr ⟨h1e.trans h2e, le_trans h1i h2i⟩

theorem sortScored_perm (l : List ScoredItem) : List.Perm (sortScored l) l :=
  List.perm_insertionSort scoredRel l

theorem sortScored_sorted (l : List ScoredItem) :
    List.Sorted scoredRel (sortScored l) := by
  haveI : IsTotal ScoredItem scoredRel := ⟨scoredRel_total⟩
  haveI : IsTrans ScoredItem scoredRel := ⟨fun _ _ _ => scoredRel_trans⟩
  exact List.sorted_insertionSort scoredRel l

theorem mem_scoredOf {products : List Product} {query : List Char} {i : ScoredItem} :
    i ∈ scoredOf products query ↔
      ∃ p ∈ products,
        scoreProduct (queryLowerOf query) (searchTermsOf query) (queryOEMCodesOf query) p
          = i := by
  rw [scoredOf, List.mem_map]

/-- The `product` field of a scored entry is the product it was built from. -/
theorem scoreProduct_product (queryLower : List Char)
    (searchTerms queryOEMCodes : List (List Char)) (p : Product) :
    (scoreProduct queryLower searchTerms queryOEMCodes p).product = p := rfl

theorem mem_sortedOf {products : List Product} {query : List Char} {i : ScoredItem} :
    i ∈ sortedOf products query ↔ i ∈ scoredOf products query :=
  (sortScored_perm _).mem_iff

/-- Every entry of the sorted scored list is the scoring of its own
`product` field, which is a catalog member. -/
theorem sortedOf_entry {products : List Product} {query : List Char} {i : ScoredItem}
    (h : i ∈ sortedOf products query) :
    i.product ∈ products ∧
      scoreProduct (queryLowerOf query) (searchTermsOf query) (queryOEMCodesOf query)
        i.product = i := by
  rcases mem_scoredOf.mp (mem_sortedOf.mp h) with ⟨p, hp, hi⟩
  have hprod : i.product = p := by
    rw [← hi]
    exact scoreProduct_product _ _ _ _
  rw [hprod]
  exact ⟨hp, hi⟩

end PlaceOrder

/-! ### Compatibility (claim C5) -/

namespace PlaceOrder

theorem opt_same_iff {x y : Option (List Char)} :
    ((x.isSome = true ∧ y.isSome = true) ∧ (x == y) = true) ↔
      ∃ v, x = some v ∧ y = some v := by
  cases x with
  | none => simp
  | some a =>
    cases y with
    | none => simp
    | some b =>
      simp only [Option.isSome_some, true_and, beq_iff_eq, Option.some.injEq]
      constructor
      · intro h
        exact ⟨a, rfl, h.symm⟩
      · rintro ⟨v, h1, h2⟩
        rw [h1, h2]

set_option maxRecDepth 100000 in
set_option maxHeartbeats 1000000 in
/-- C5, counterexample.  `pShellR` and `pTotalR` share the application
`diesel` and the volume `5l` and have different brands, so the claim's
disjunctive compatibility condition holds; but `areProductsSimilar`
requires a shared *viscosity* (which neither product has) and returns
`false`. -/
theorem claimC5_counterexample :
    specCompatible pShellR pTotalR = true ∧ areProductsSimilar pShellR pTotalR = false := by
  constructor
  · decide
  · decide

set_option maxHeartbeats 1000000 in
/-- C5, amended.  The compatibility test holds exactly when the two products
share an extracted viscosity (not: viscosity or application), AND share a
volume or share the application, AND have different brand tokens. -/
theorem claimC5_amended (p1 p2 : Product) :
    areProductsSimilar p1 p2 = true ↔
      (∃ v, (extractSpecs p1).viscosity = some v ∧ (extractSpecs p2).viscosity = some v) ∧
      ((∃ u, (extractSpecs p1).volume = some u ∧ (extractSpecs p2).volume = some u) ∨
        (∃ w, (extractSpecs p1).application = some w ∧
          (extractSpecs p2).application = some w)) ∧
      (extractSpecs p1).brand ≠ (extractSpecs p2).brand := by
  simp only [areProductsSimilar, Bool.and_eq_true, Bool.or_eq_true, bne_iff_ne]
  rw [opt_same_iff, opt_same_iff, opt_same_iff]
  exact and_assoc

end PlaceOrder

/-! ### Tier monotonicity (claim C3) -/

namespace PlaceOrder

theorem foldl_score_mono {α : Type} (f : ScoreState → α → ScoreState)
    (hf : ∀ s x, s.maxScore.val ≤ (f s x).maxScore.val) :
    ∀ (l : List α) (st : ScoreState), st.maxScore.val ≤ (List.foldl f st l).maxScore.val := by
  intro l
  induction l with
  | nil => intro st; simp
  | cons x xs ih =>
    intro st
    calc st.maxScore.val ≤ (f st x).maxScore.val := hf st x
      _ ≤ (List.foldl f (f st x) xs).maxScore.val := ih (f st x)
      _ = (List.foldl f st (x :: xs)).maxScore.val := by rw [List.foldl_cons]

theorem max_self_le (a b : Q) : a.val ≤ (Q.max a b).val := by
  rw [Q.val_max]
  exact le_max_left _ _

theorem tier1Hit_mono (p : Product) (st : ScoreState) (qoem : List Char) :
    st.maxScore.val ≤ (tier1Hit p st qoem).maxScore.val := by
  rw [tier1Hit]
  split
  · exact max_self_le _ _
  · exact le_refl _

theorem tier1Sim_mono (qoem : List Char) (st : ScoreState) (poem : List Char) :
    st.maxScore.val ≤ (tier1Sim qoem st poem).maxScore.val := by
  simp only [tier1Sim]
  split
  · exact max_self_le _ _
  · exact le_refl _

theorem tier1Raw_mono (searchableText qoem : List Char) (st : ScoreState) :
    st.maxScore.val ≤ (tier1Raw searchableText qoem st).maxScore.val := by
  rw [tier1Raw]
  split
  · exact max_self_le _ _
  · exact le_refl _

theorem tier1Code_mono (p : Product) (searchableText : List Char)
    (productOEMCodes : List (List Char)) (st : ScoreState) (qoem : List Char) :
    st.maxScore.val ≤ (tier1Code p searchableText productOEMCodes st qoem).maxScore.val := by
  rw [tier1Code]
  refine le_trans (tier1Hit_mono p st qoem) ?_
  refine le_trans (foldl_score_mono _ (tier1Sim_mono qoem) productOEMCodes _) ?_
  exact tier1Raw_mono _ _ _

theorem tier1_mono (p : Product) (searchableText : List Char)
    (queryOEMCodes productOEMCodes : List (List Char)) (st : ScoreState) :
    st.maxScore.val ≤
      (tier1 p searchableText queryOEMCodes productOEMCodes st).maxScore.val := by
  rw [tier1]
  split
  · exact foldl_score_mono _ (tier1Code_mono p searchableText productOEMCodes) _ st
  · exact le_refl _

theorem tier2Term_mono (p : Product) (searchableText : List Char)
    (st : ScoreState) (term : List Char) :
    st.maxScore.val ≤ (tier2Term p searchableText st term).maxScore.val := by
  rw [tier2Term]
  split
  · split
    · exact max_self_le _ _
    · split
      · exact max_self_le _ _
      · split
        · exact max_self_le _ _
        · exact le_refl _
  · exact le_refl _

theorem tier2_mono (p : Product) (searchableText : List Char)
    (searchTerms : List (List Char)) (st : ScoreState) :
    st.maxScore.val ≤ (tier2 p searchableText searchTerms st).maxScore.val := by
  rw [tier2]
  split
  · exact foldl_score_mono _ (tier2Term_mono p searchableText) _ st
  · exact le_refl _

theorem tier3Term_mono (p : Product) (st : ScoreState) (term : List Char) :
    st.maxScore.val ≤ (tier3Term p st term).maxScore.val := by
  simp only [tier3Term]
  split
  · split
    · rename_i hlt
      exact le_of_lt (Q.val_blt.mp hlt)
    · exact le_refl _
  · exact le_refl _

theorem tier3_mono (p : Product) (searchTerms : List (List Char)) (st : ScoreState) :
    st.maxScore.val ≤ (tier3 p searchTerms st).maxScore.val := by
  rw [tier3]
  split
  · exact foldl_score_mono _ (tier3Term_mono p) _ st
  · exact le_refl _

theorem tier4Visc_mono (searchableText queryLower : List Char) (st : ScoreState) :
    st.maxScore.val ≤ (tier4Visc searchableText queryLower st).maxScore.val := by
  rw [tier4Visc]
  rcases Rx.search viscRe queryLower with _ | v
  · exact le_refl _
  · simp only []
    split
    · exact max_self_le _ _
    · exact le_refl _

theorem tier4Vol_mono (searchableText queryLower : List Char) (st : ScoreState) :
    st.maxScore.val ≤ (tier4Vol searchableText queryLower st).maxScore.val := by
  rw [tier4Vol]
  rcases Rx.search volRe queryLower with _ | v
  · exact le_refl _
  · simp only []
    split
    · exact max_self_le _ _
    · exact le_refl _

theorem tier4Grade_mono (searchableText queryLower : List Char) (st : ScoreState) :
    st.maxScore.val ≤ (tier4Grade searchableText queryLower st).maxScore.val := by
  rw [tier4Grade]
  rcases Rx.search gradeReI queryLower with _ | g
  · exact le_refl _
  · simp only []
    split
    · exact max_self_le _ _
    · exact le_refl _

theorem tier4_mono (searchableText queryLower : List Char) (st : ScoreState) :
    st.maxScore.val ≤ (tier4 searchableText queryLower st).maxScore.val := by
  rw [tier4]
  split
  · exact le_trans (tier4Visc_mono _ _ _)
      (le_trans (tier4Vol_mono _ _ _) (tier4Grade_mono _ _ _))
  · exact le_refl _

end PlaceOrder

namespace PlaceOrder

set_option maxRecDepth 100000 in
/-- C3, counterexample.  For the product `pCodeB1` (name `zz`, item code
`b1`), the query `ab1` scores `0.81` through the fuzzy tier, while the
extended query `ab1 b1` — whose added term `b1` triggers the stronger
exact-code tier — scores only `0.8`: the tier-3 guard `maxScore < 0.7`
skips the fuzzy pass once the exact-code hit has fired, so adding a
stronger-tier match *decreased* the score. -/
theorem claimC3_counterexample :
    scoredOf [pCodeB1] (("ab1").data) = [⟨pCodeB1, ⟨81, 99⟩, "FUZZY"⟩] ∧
    scoredOf [pCodeB1] (("ab1 b1").data) = [⟨pCodeB1, ⟨8, 9⟩, "CODE_EXACT"⟩] ∧
    Q.val ⟨8, 9⟩ < Q.val ⟨81, 99⟩ := by
  refine ⟨by decide, by decide, ?_⟩
  rw [Q.val, Q.val]
  norm_num

/-- C3, amended.  Within one scoring pass the claim holds: each of the four
tiers only raises the running maximum score, and the final score of
`scoreProduct` is the value after the last tier; but (see the
counterexample) extending the query with text that triggers a stronger
tier may still lower the final score, because the tier guards can skip a
fuzzy contribution larger than the stronger tier's own. -/
theorem claimC3_amended (p : Product) (queryLower : List Char)
    (searchTerms queryOEMCodes : List (List Char)) (st : ScoreState) :
    st.maxScore.val ≤
      (tier1 p (searchableTextOf p) queryOEMCodes (productOEMCodesOf p) st).maxScore.val ∧
    st.maxScore.val ≤ (tier2 p (searchableTextOf p) searchTerms st).maxScore.val ∧
    st.maxScore.val ≤ (tier3 p searchTerms st).maxScore.val ∧
    st.maxScore.val ≤ (tier4 (searchableTextOf p) queryLower st).maxScore.val ∧
    (scoreProduct queryLower searchTerms queryOEMCodes p).score
      = (tier4 (searchableTextOf p) queryLower
          (tier3 p searchTerms
            (tier2 p (searchableTextOf p) searchTerms
              (tier1 p (searchableTextOf p) queryOEMCodes (productOEMCodesOf p)
                ⟨0, ""⟩)))).maxScore :=
  ⟨tier1_mono _ _ _ _ _, tier2_mono _ _ _ _, tier3_mono _ _ _,
    tier4_mono _ _ _, rfl⟩

end PlaceOrder

/-! ### Exact-code scoring (claim C1) -/

namespace Q

theorem val_mk10 : Q.val ⟨10, 9⟩ = 1 := by
  rw [val]
  norm_num

end Q

namespace PlaceOrder

/-- Once tier 1 holds score `1.0` with type `OEM_EXACT`, the loop over the
product's extracted codes leaves the state unchanged, provided every code
compares against the query code at exactly `1` or strictly below `0.8`. -/
theorem tier1Sim_fold_fixed (qoem : List Char) :
    ∀ codes : List (List Char),
      (∀ c ∈ codes, (isOEMSimilar qoem c).val = 1 ∨ (isOEMSimilar qoem c).val < 4/5) →
      codes.foldl (tier1Sim qoem) ⟨⟨10, 9⟩, "OEM_EXACT"⟩ = ⟨⟨10, 9⟩, "OEM_EXACT"⟩ := by
  intro codes
  induction codes with
  | nil => intro _; rfl
  | cons c cs ih =>
    intro H
    rw [List.foldl_cons]
    have hstep : tier1Sim qoem ⟨⟨10, 9⟩, "OEM_EXACT"⟩ c = ⟨⟨10, 9⟩, "OEM_EXACT"⟩ := by
      simp only [tier1Sim]
      rcases H c (List.mem_cons_self c cs) with h1 | h1
      · rw [if_pos (Q.val_ble.mpr (by rw [h1, Q.val_lit08]; norm_num))]
        have hbeq : Q.beq (isOEMSimilar qoem c) 1.0 = true :=
          Q.val_beq.mpr (by rw [h1, Q.val_lit10])
        have hmax : Q.max ⟨10, 9⟩ (isOEMSimilar qoem c) = ⟨10, 9⟩ := by
          rw [Q.max, if_neg]
          intro hblt
          have := Q.val_blt.mp hblt
          rw [h1, Q.val_mk10] at this
          exact lt_irrefl _ this
        rw [hbeq, hmax]
        rfl
      · rw [if_neg]
        intro hble
        have := Q.val_ble.mp hble
        rw [Q.val_lit08] at this
        exact absurd h1 (not_lt.mpr this)
    rw [hstep]
    exact ih (fun d hd => H d (List.mem_cons_of_mem _ hd))

/-- A product whose item code is exactly the query code `ABC12345` scores
`1.0` as `OEM_EXACT`, provided none of its extracted codes sits in the
overwrite band `[0.8, 1)` of the code-similarity loop. -/
theorem scoreProduct_qex (p : Product) (hcode : p.itemCode = qexC)
    (H : ∀ c ∈ productOEMCodesOf p,
      (isOEMSimilar qexC c).val = 1 ∨ (isOEMSimilar qexC c).val < 4/5) :
    scoreProduct (queryLowerOf qexC) (searchTermsOf qexC) (queryOEMCodesOf qexC) p
      = ⟨p, ⟨10, 9⟩, "OEM_EXACT"⟩ := by
  have hq : queryOEMCodesOf qexC = [qexC] := by decide
  have ht1 : tier1 p (searchableTextOf p) (queryOEMCodesOf qexC) (productOEMCodesOf p)
      ⟨0, ""⟩ = ⟨⟨10, 9⟩, "OEM_EXACT"⟩ := by
    rw [hq, tier1, if_pos (by decide), List.foldl_cons, List.foldl_nil, tier1Code]
    have hhit : tier1Hit p ⟨0, ""⟩ qexC = ⟨⟨10, 9⟩, "OEM_EXACT"⟩ := by
      rw [tier1Hit, hcode]
      rw [if_pos (by decide)]
      have hmx : Q.max (ScoreState.mk 0 "").maxScore 1.0 = ⟨10, 9⟩ := by decide
      rw [hmx]
    rw [hhit, tier1Sim_fold_fixed qexC _ H, tier1Raw]
    rw [show Q.blt (ScoreState.mk ⟨10, 9⟩ "OEM_EXACT").maxScore 0.8 = false from by decide,
      Bool.false_and]
    rw [if_neg (by simp)]
  simp only [scoreProduct, ht1]
  rw [tier2, if_neg (by decide), tier3, if_neg (by decide), tier4, if_neg (by decide)]

set_option maxRecDepth 100000 in
/-- C1, counterexample.  A catalog whose `ABC12345`-coded product has the
longer code `ABC123456` in its name still scores `1.0`, but the
code-similarity loop overwrites the match type: the scored match is
`OEM_SIMILAR`, not `OEM_EXACT` as claimed for every catalog. -/
theorem claimC1_counterexample :
    scoredOf [pOem] qexC = [⟨pOem, ⟨10, 9⟩, "OEM_SIMILAR"⟩] ∧
    ("OEM_SIMILAR" : String) ≠ "OEM_EXACT" := by
  constructor
  · decide
  · decide

/-- C1, amended.  For every catalog containing a product `p` with item code
`ABC12345`, if no extracted code of `p` has code-similarity in `[0.8, 1)`
with the query code (otherwise the loop overwrites the type to
`OEM_SIMILAR`, see the counterexample), then for the query `ABC12345` the
scored match of `p` has score `1.0` and type `OEM_EXACT`; and when every
other catalog product scores strictly below `1.0`, `p` is the first element
of the returned `matches`. -/
theorem claimC1_amended (products : List Product) (p : Product)
    (hp : p ∈ products) (hcode : p.itemCode = qexC)
    (hcodes : ∀ c ∈ productOEMCodesOf p,
      (isOEMSimilar qexC c).val = 1 ∨ (isOEMSimilar qexC c).val < 4/5)
    (hothers : ∀ q ∈ products, q ≠ p →
      (scoreProduct (queryLowerOf qexC) (searchTermsOf qexC) (queryOEMCodesOf qexC)
        q).score.val < 1) :
    (scoreProduct (queryLowerOf qexC) (searchTermsOf qexC) (queryOEMCodesOf qexC)
        p).score.val = 1 ∧
    (scoreProduct (queryLowerOf qexC) (searchTermsOf qexC) (queryOEMCodesOf qexC)
        p).matchType = "OEM_EXACT" ∧
    (smartProductSearch products qexC).«matches».head? = some p := by
  have hscore := scoreProduct_qex p hcode hcodes
  refine ⟨by rw [hscore]; exact Q.val_mk10, by rw [hscore], ?_⟩
  have hmem : (⟨p, ⟨10, 9⟩, "OEM_EXACT"⟩ : ScoredItem) ∈ sortedOf products qexC :=
    mem_sortedOf.mpr (mem_scoredOf.mpr ⟨p, hp, hscore⟩)
  rcases hsorted : sortedOf products qexC with _ | ⟨m, rest⟩
  · rw [hsorted] at hmem
    exact absurd hmem (List.not_mem_nil _)
  · have hm : m ∈ sortedOf products qexC := by
      rw [hsorted]
      exact List.mem_cons_self m rest
    obtain ⟨hmP, hmEq⟩ := sortedOf_entry hm
    have hmp : m.product = p := by
      by_cases hq : m.product = p
      · exact hq
      · exfalso
        have hlt := hothers m.product hmP hq
        rw [hmEq] at hlt
        rw [hsorted] at hmem
        rcases List.mem_cons.mp hmem with heq | hrest
        · exact hq (by rw [← heq])
        · have hpair := sortScored_sorted (scoredOf products qexC)
          rw [show sortScored (scoredOf products qexC) = sortedOf products qexC from rfl,
            hsorted] at hpair
          have hrel : scoredRel m ⟨p, ⟨10, 9⟩, "OEM_EXACT"⟩ :=
            (List.sorted_cons.mp hpair).1 _ hrest
          have hv : (ScoredItem.mk p ⟨10, 9⟩ ("OEM_EXACT")).score.val = 1 := Q.val_mk10
          rcases scoredRel_iff.mp hrel with hlt2 | ⟨heq2, _⟩
          · rw [hv] at hlt2
            exact lt_irrefl _ (lt_trans hlt2 hlt)
          · rw [hv] at heq2
            rw [heq2] at hlt
            exact lt_irrefl _ hlt
    have hmfull : m = ⟨p, ⟨10, 9⟩, "OEM_EXACT"⟩ := by
      rw [← hmEq, hmp, hscore]
    rw [smartProductSearch, if_neg (by decide), goodMatchesOf, hsorted, hmfull]
    rfl

/-- C1, witness for the amended theorem: the one-product catalog
`[pPlain]` with the query `ABC12345`. -/
theorem claimC1_witness :
    (scoreProduct (queryLowerOf qexC) (searchTermsOf qexC) (queryOEMCodesOf qexC)
        pPlain).score.val = 1 ∧
    (scoreProduct (queryLowerOf qexC) (searchTermsOf qexC) (queryOEMCodesOf qexC)
        pPlain).matchType = "OEM_EXACT" ∧
    (smartProductSearch [pPlain] qexC).«matches».head? = some pPlain := by
  refine claimC1_amended [pPlain] pPlain (List.mem_cons_self _ _) (by decide) ?_ ?_
  · intro c hc
    have hcodes : productOEMCodesOf pPlain = [qexC] := by decide
    rw [hcodes] at hc
    rcases List.mem_cons.mp hc with rfl | habs
    · left
      rw [show isOEMSimilar qexC qexC = ⟨10, 9⟩ from by decide]
      exact Q.val_mk10
    · exact absurd habs (List.not_mem_nil _)
  · intro q hq hne
    rcases List.mem_cons.mp hq with rfl | habs
    · exact absurd rfl hne
    · exact absurd habs (List.not_mem_nil _)

end PlaceOrder

/-! ### Partition and suggestion invariants (claims C6, C10) -/

namespace PlaceOrder

theorem mem_matches_iff {products : List Product} {query : List Char}
    (hq : ¬ JsStr.trim query = []) (x : Product) :
    x ∈ (smartProductSearch products query).«matches» ↔
      x ∈ products ∧ (2/5 : ℚ) ≤
        (scoreProduct (queryLowerOf query) (searchTermsOf query) (queryOEMCodesOf query)
          x).score.val := by
  rw [smartProductSearch, if_neg hq]
  show x ∈ (goodMatchesOf products query).map (fun i => i.product) ↔ _
  rw [List.mem_map]
  constructor
  · rintro ⟨i, hi, hix⟩
    rw [goodMatchesOf, List.mem_filter] at hi
    obtain ⟨his, hble⟩ := hi
    obtain ⟨hiP, hiEq⟩ := sortedOf_entry his
    have hv := Q.val_ble.mp hble
    rw [Q.val_lit04] at hv
    rw [← hix]
    exact ⟨hiP, by rw [hiEq]; exact hv⟩
  · rintro ⟨hxP, hxv⟩
    refine ⟨scoreProduct (queryLowerOf query) (searchTermsOf query) (queryOEMCodesOf query) x,
      ?_, scoreProduct_product _ _ _ _⟩
    rw [goodMatchesOf, List.mem_filter]
    constructor
    · exact mem_sortedOf.mpr (mem_scoredOf.mpr ⟨x, hxP, rfl⟩)
    · exact Q.val_ble.mpr (by rw [Q.val_lit04]; exact hxv)

theorem mem_potential_band {products : List Product} {query : List Char} {i : ScoredItem}
    (hi : i ∈ potentialMatchesOf products query) :
    (3/20 : ℚ) ≤ i.score.val ∧ i.score.val < 2/5 := by
  rw [potentialMatchesOf, List.mem_filter, Bool.and_eq_true] at hi
  obtain ⟨_, hble, hblt⟩ := hi
  constructor
  · have := Q.val_ble.mp hble
    rw [Q.val_lit015] at this
    exact this
  · have := Q.val_blt.mp hblt
    rw [Q.val_lit04] at this
    exact this

/-- The product ids of the sorted scored list are the catalog's ids, up to
permutation; in particular distinct catalog ids stay distinct. -/
theorem sorted_ids_nodup (products : List Product) (query : List Char)
    (hnd : (products.map (fun pr => pr.id)).Nodup) :
    ((sortedOf products query).map (fun i => i.product.id)).Nodup := by
  have hmap : (scoredOf products query).map (fun i => i.product.id)
      = products.map (fun pr => pr.id) := by
    rw [scoredOf, List.map_map]
    rfl
  have hperm : List.Perm ((sortedOf products query).map (fun i => i.product.id))
      ((scoredOf products query).map (fun i => i.product.id)) :=
    (sortScored_perm _).map _
  rw [hperm.nodup_iff, hmap]
  exact hnd

/-- Two catalog members with the same id are equal when ids are distinct. -/
theorem id_inj {products : List Product}
    (hnd : (products.map (fun pr => pr.id)).Nodup)
    {x y : Product} (hx : x ∈ products) (hy : y ∈ products) (hid : x.id = y.id) :
    x = y :=
  List.inj_on_of_nodup_map hnd hx hy hid

/-- The invariant of the suggestion-building folds: the id set mirrors the
suggestion list, the ids are distinct, and every pushed product satisfies
`P`. -/
def SugInv (P : Product → Prop) (s : SugState) : Prop :=
  s.ids = s.suggestions.map (fun pr => pr.id) ∧ s.ids.Nodup ∧ ∀ x ∈ s.suggestions, P x

theorem sugInv_append {P : Product → Prop} {s : SugState} {x : Product}
    (hs : SugInv P s) (hni : s.ids.contains x.id = false) (hx : P x) :
    SugInv P ⟨s.suggestions ++ [x], s.ids ++ [x.id]⟩ := by
  obtain ⟨hids, hnd, hall⟩ := hs
  refine ⟨by simp [hids], ?_, ?_⟩
  · rw [List.nodup_append]
    refine ⟨hnd, List.nodup_singleton _, ?_⟩
    intro a ha hb
    rw [List.mem_singleton] at hb
    subst hb
    have hc : s.ids.contains x.id = true := List.elem_eq_true_of_mem ha
    rw [hc] at hni
    exact Bool.noConfusion hni
  · intro y hy
    rcases List.mem_append.mp hy with hy1 | hy2
    · exact hall y hy1
    · rw [List.mem_singleton] at hy2
      subst hy2
      exact hx

theorem sugInv_push {P : Product → Prop} {s : SugState} {x : Product}
    (hs : SugInv P s) (hx : P x) : SugInv P (pushSuggestion s x) := by
  rw [pushSuggestion]
  split
  · exact hs
  · rename_i hc
    exact sugInv_append hs (by simpa using hc) hx

theorem sugInv_foldl {α : Type} {P : Product → Prop} (f : SugState → α → SugState)
    (l : List α)
    (hf : ∀ s, ∀ x ∈ l, SugInv P s → SugInv P (f s x)) :
    ∀ s₀ : SugState, SugInv P s₀ → SugInv P (l.foldl f s₀) := by
  induction l with
  | nil => intro s h; exact h
  | cons x xs ih =>
    intro s h
    rw [List.foldl_cons]
    exact ih (fun s' y hy h' => hf s' y (List.mem_cons_of_mem _ hy) h')
      (f s x) (hf s x (List.mem_cons_self _ _) h)

/-- The low-score property every suggestion satisfies: it is the product of
a scored entry that scored strictly below `0.4`. -/
def LowScore (products : List Product) (query : List Char) (x : Product) : Prop :=
  ∃ i ∈ sortedOf products query, i.product = x ∧ Q.blt i.score 0.4 = true

theorem lowScore_of_potential {products : List Product} {query : List Char}
    {i : ScoredItem} (hi : i ∈ potentialMatchesOf products query) :
    LowScore products query i.product := by
  rw [potentialMatchesOf, List.mem_filter, Bool.and_eq_true] at hi
  exact ⟨i, hi.1, rfl, hi.2.2⟩

theorem suggestionsOf_inv (products : List Product) (query : List Char) :
    ((suggestionsOf products query).map (fun pr => pr.id)).Nodup ∧
      ∀ x ∈ suggestionsOf products query, LowScore products query x := by
  have extract : ∀ s : SugState, SugInv (LowScore products query) s →
      ((s.suggestions.map (fun pr => pr.id)).Nodup ∧
        ∀ x ∈ s.suggestions, LowScore products query x) := by
    rintro s ⟨hids, hnd, hall⟩
    exact ⟨hids ▸ hnd, hall⟩
  have hinit : SugInv (LowScore products query) ⟨[], []⟩ :=
    ⟨rfl, List.nodup_nil, fun x hx => absurd hx (List.not_mem_nil x)⟩
  have hpot : ∀ (n : Nat) (s₀ : SugState), SugInv (LowScore products query) s₀ →
      SugInv (LowScore products query)
        (((potentialMatchesOf products query).take n).foldl
          (fun s item => pushSuggestion s item.product) s₀) := by
    intro n s₀ h0
    refine sugInv_foldl _ _ ?_ s₀ h0
    intro s item hmem hs
    have hp : item ∈ potentialMatchesOf products query :=
      List.mem_of_mem_take hmem
    exact sugInv_push hs (lowScore_of_potential hp)
  have hsim : SugInv (LowScore products query) (similarSuggestionsOf products query) := by
    rw [similarSuggestionsOf]
    refine sugInv_foldl _ _ ?_ _ hinit
    intro s matchedItem _ hs
    refine sugInv_foldl _ _ ?_ s hs
    intro s' item hmem hs'
    split
    · rename_i hcond
      simp only [Bool.and_eq_true, decide_eq_true_eq] at hcond
      obtain ⟨⟨⟨hblt, _⟩, hnc⟩, hsimilar⟩ := hcond
      refine sugInv_append hs' ?_ ?_
      · simpa using hnc
      · exact ⟨item, hmem, rfl, hblt⟩
    · exact hs'
  simp only [suggestionsOf]
  split
  · exact extract _ (hpot 5 _ hinit)
  · split
    · exact extract _ (hpot _ _ hsim)
    · exact extract _ hsim

end PlaceOrder

namespace PlaceOrder

theorem foldl_push_all :
    ∀ (l : List Product) (s : SugState),
      (∀ x ∈ l, x.id ∉ s.ids) →
      (l.map (fun pr => pr.id)).Nodup →
      (l.foldl pushSuggestion s).suggestions = s.suggestions ++ l := by
  intro l
  induction l with
  | nil => intro s _ _; simp
  | cons x xs ih =>
    intro s hni hnd
    rw [List.foldl_cons, pushSuggestion,
      if_neg (fun h => hni x (List.mem_cons_self x xs) (List.mem_of_elem_eq_true h))]
    rw [List.map_cons, List.nodup_cons] at hnd
    have h1 : ∀ y ∈ xs, y.id ∉ s.ids ++ [x.id] := by
      intro y hy hmem
      rcases List.mem_append.mp hmem with h | h
      · exact hni y (List.mem_cons_of_mem _ hy) h
      · rw [List.mem_singleton] at h
        exact hnd.1 (h ▸ List.mem_map_of_mem (fun pr => pr.id) hy)
    have := ih ⟨s.suggestions ++ [x], s.ids ++ [x.id]⟩ h1 hnd.2
    rw [this]
    simp

theorem goodMatchesOf_eq_nil {products : List Product} {query : List Char}
    (hall : ∀ q ∈ products,
      (scoreProduct (queryLowerOf query) (searchTermsOf query) (queryOEMCodesOf query)
        q).score.val < 2/5) :
    goodMatchesOf products query = [] := by
  rw [goodMatchesOf, List.filter_eq_nil_iff]
  intro i hi
  obtain ⟨hiP, hiEq⟩ := sortedOf_entry hi
  intro hble
  have hv := Q.val_ble.mp hble
  rw [Q.val_lit04] at hv
  have hlt := hall i.product hiP
  rw [hiEq] at hlt
  linarith

/-- When no good matches exist and catalog ids are distinct, the
suggestions are exactly the first five potential matches. -/
theorem suggestions_no_good {products : List Product} {query : List Char}
    (hnd : (products.map (fun pr => pr.id)).Nodup)
    (hnil : goodMatchesOf products query = []) :
    suggestionsOf products query
      = ((potentialMatchesOf products query).take 5).map (fun i => i.product) := by
  rw [suggestionsOf, if_pos (by rw [hnil]; rfl), emptySuggestionsOf]
  rw [← List.foldl_map (fun i : ScoredItem => i.product) pushSuggestion]
  have hsub : List.Sublist
      ((((potentialMatchesOf products query).take 5).map
        (fun i => i.product)).map (fun pr => pr.id))
      ((sortedOf products query).map (fun i => i.product.id)) := by
    rw [List.map_map]
    exact ((List.take_sublist _ _).trans (List.filter_sublist _)).map _
  have hnodup := (sorted_ids_nodup products query hnd).sublist hsub
  rw [foldl_push_all _ _ (fun x _ h => absurd h (List.not_mem_nil _)) hnodup]
  rfl

set_option maxRecDepth 100000 in
/-- C6, counterexample.  `pFuzzy` scores `0.32` for the query `abcde` —
inside the low-confidence band `[0.15, 0.4)` and below the confident
threshold — so the claim's premise holds, the matches list is empty and the
suggestions hold the product; but the returned structure carries no
`noResultsMessage` (the source's object literal has no such property), so
the claim's "a noResultsMessage is set" is false. -/
theorem claimC6_counterexample :
    scoredOf [pFuzzy] (("abcde").data) = [⟨pFuzzy, ⟨16, 49⟩, "FUZZY"⟩] ∧
    (3/20 : ℚ) ≤ Q.val ⟨16, 49⟩ ∧ Q.val ⟨16, 49⟩ < 2/5 ∧
    smartProductSearch [pFuzzy] (("abcde").data)
      = { «matches» := [], suggestions := [pFuzzy], noResultsMessage := none } := by
  refine ⟨by decide, ?_, ?_, by decide⟩
  · rw [Q.val]
    norm_num
  · rw [Q.val]
    norm_num

/-- C6, amended.  For every non-empty (after trimming) query: membership in
the returned matches is exactly catalog membership with score `≥ 0.4`; every
potential match sits in the band `[0.15, 0.4)`; the output never carries a
`noResultsMessage` (the claim's message clause does not hold —
`smartProductSearch`'s result has no such property); and when the catalog
ids are distinct and no product reaches `0.4`, the matches are empty and
the suggestions are exactly the top five potential matches. -/
theorem claimC6_amended (products : List Product) (query : List Char)
    (hq : ¬ JsStr.trim query = []) :
    (∀ x, x ∈ (smartProductSearch products query).«matches» ↔
      x ∈ products ∧ (2/5 : ℚ) ≤
        (scoreProduct (queryLowerOf query) (searchTermsOf query) (queryOEMCodesOf query)
          x).score.val) ∧
    (∀ i ∈ potentialMatchesOf products query,
      (3/20 : ℚ) ≤ i.score.val ∧ i.score.val < 2/5) ∧
    (smartProductSearch products query).noResultsMessage = none ∧
    ((products.map (fun pr => pr.id)).Nodup →
      (∀ q ∈ products,
        (scoreProduct (queryLowerOf query) (searchTermsOf query) (queryOEMCodesOf query)
          q).score.val < 2/5) →
      (smartProductSearch products query).«matches» = [] ∧
      (smartProductSearch products query).suggestions
        = ((potentialMatchesOf products query).take 5).map (fun i => i.product)) := by
  refine ⟨mem_matches_iff hq, fun i hi => mem_potential_band hi, ?_, ?_⟩
  · rw [smartProductSearch, if_neg hq]
  · intro hnd hall
    have hnil := goodMatchesOf_eq_nil hall
    constructor
    · rw [smartProductSearch, if_neg hq]
      show (goodMatchesOf products query).map (fun i => i.product) = []
      rw [hnil]
      rfl
    · rw [smartProductSearch, if_neg hq]
      show suggestionsOf products query = _
      exact suggestions_no_good hnd hnil

/-- C6, witness for the amended theorem at the catalog `[pFuzzy]` and the
query `abcde`. -/
theorem claimC6_witness :
    (smartProductSearch [pFuzzy] (("abcde").data)).noResultsMessage = none :=
  (claimC6_amended [pFuzzy] (("abcde").data) (by decide)).2.2.1

/-- C10 (confirmed): with pairwise-distinct catalog ids, no product id
occurs more than once across the matches and suggestions of one
`smartProductSearch` call — matches and suggestions are disjoint (every
suggestion's scored entry sits strictly below the `0.4` threshold while
every match's entry sits at or above it) and the suggestions carry no
duplicate ids. -/
theorem claimC10 (products : List Product) (query : List Char)
    (hnd : (products.map (fun pr => pr.id)).Nodup) :
    (((smartProductSearch products query).«matches» ++
      (smartProductSearch products query).suggestions).map (fun pr => pr.id)).Nodup := by
  by_cases hq : JsStr.trim query = []
  · rw [smartProductSearch, if_pos hq]
    show ((products ++ ([] : List Product)).map (fun pr : Product => pr.id)).Nodup
    rw [List.append_nil]
    exact hnd
  · rw [smartProductSearch, if_neg hq]
    show ((((goodMatchesOf products query).map (fun i => i.product)) ++
      suggestionsOf products query).map (fun pr : Product => pr.id)).Nodup
    rw [List.map_append, List.nodup_append]
    refine ⟨?_, (suggestionsOf_inv products query).1, ?_⟩
    · rw [List.map_map]
      refine (sorted_ids_nodup products query hnd).sublist ?_
      exact (List.filter_sublist _).map _
    · intro a ha hb
      rw [List.map_map, List.mem_map] at ha
      obtain ⟨i, hi, hia⟩ := ha
      rw [List.mem_map] at hb
      obtain ⟨y, hy, hya⟩ := hb
      rw [goodMatchesOf, List.mem_filter] at hi
      obtain ⟨his, hble⟩ := hi
      obtain ⟨hiP, hiEq⟩ := sortedOf_entry his
      obtain ⟨j, hjs, hjy, hjlt⟩ := (suggestionsOf_inv products query).2 y hy
      obtain ⟨hjP, hjEq⟩ := sortedOf_entry hjs
      have hxy : i.product = y := by
        refine id_inj hnd hiP (hjy ▸ hjP) ?_
        simp only [Function.comp_apply] at hia
        rw [hia, hya]
      have hij : i = j := by
        rw [← hiEq, hxy, ← hjy, hjEq]
      have hv1 := Q.val_ble.mp hble
      rw [Q.val_lit04] at hv1
      have hv2 := Q.val_blt.mp hjlt
      rw [Q.val_lit04] at hv2
      rw [hij] at hv1
      linarith

set_option maxRecDepth 100000 in
/-- C10, witness at the catalog `[pFuzzy]` and the query `abcde`. -/
theorem claimC10_witness :
    (((smartProductSearch [pFuzzy] (("abcde").data)).«matches» ++
      (smartProductSearch [pFuzzy] (("abcde").data)).suggestions).map
        (fun pr => pr.id)).Nodup :=
  claimC10 [pFuzzy] (("abcde").data) (by decide)

end PlaceOrder

/-! ### Empty query and empty catalog (claims C4, C7) -/

/-- C4 (confirmed): a query that is empty after trimming is the identity
case.  `smartProductSearch` returns every catalog product it was given as
its matches with no suggestions; `smartSearch` returns every catalog
product as a confident result with similarity `1.0` and the `exact` match
type, no suggestions and no message. -/
theorem claimC4 (query : List Char) (hq : JsStr.trim query = []) :
    (∀ products : List PlaceOrder.Product,
      PlaceOrder.smartProductSearch products query
        = { «matches» := products, suggestions := [], noResultsMessage := none }) ∧
    (∀ (products : List SmartSearch.Product) (t : Option SmartSearch.Trans),
      SmartSearch.smartSearch query products t
        = { results := products.map (fun p => ⟨p, 1, "exact", none⟩),
            suggestions := [], noResultsMessage := none }) := by
  constructor
  · intro products
    rw [PlaceOrder.smartProductSearch, if_pos hq]
  · intro products t
    rw [SmartSearch.smartSearch, if_pos hq]

/-- C4, witness at the empty query and the one-product catalogs. -/
theorem claimC4_witness :
    PlaceOrder.smartProductSearch [PlaceOrder.pFuzzy] []
      = { «matches» := [PlaceOrder.pFuzzy], suggestions := [], noResultsMessage := none } ∧
    SmartSearch.smartSearch [] [SmartSearch.spKkkk] none
      = { results := [⟨SmartSearch.spKkkk, 1, "exact", none⟩],
          suggestions := [], noResultsMessage := none } :=
  ⟨(claimC4 [] (by decide)).1 [PlaceOrder.pFuzzy],
    (claimC4 [] (by decide)).2 [SmartSearch.spKkkk] none⟩

set_option maxRecDepth 1000000 in
set_option maxHeartbeats 2000000 in
/-- C7, counterexample.  Searching the empty catalog for `vvvv` and
searching the one-product catalog `[spKkkk]` (which matches nothing) for
the same query produce the *same* generic no-products message: the code has
no catalog-size check before scoring, and the "no products" case is not
distinguished from the "query matched nothing" case. -/
theorem claimC7_counterexample :
    SmartSearch.smartSearch (("vvvv").data) [] none
      = { results := [], suggestions := [],
          noResultsMessage := some (SmartSearch.noProductsMsg none (("vvvv").data)) } ∧
    SmartSearch.smartSearch (("vvvv").data) [SmartSearch.spKkkk] none
      = { results := [], suggestions := [],
          noResultsMessage := some (SmartSearch.noProductsMsg none (("vvvv").data)) } ∧
    (SmartSearch.smartSearch (("vvvv").data) [] none).noResultsMessage
      = (SmartSearch.smartSearch (("vvvv").data) [SmartSearch.spKkkk]
          none).noResultsMessage := by
  refine ⟨by decide, by decide, by decide⟩

/-- C7, amended.  For every non-empty (after trimming) query, searching an
empty catalog returns empty results, empty suggestions, and the generic
no-products message — produced by the `allResults.length === 0` check after
scoring the empty list, not by a catalog-size check, and therefore the same
message a query that matches nothing receives (see the counterexample). -/
theorem claimC7_amended (query : List Char) (t : Option SmartSearch.Trans)
    (hq : ¬ JsStr.trim query = []) :
    SmartSearch.smartSearch query [] t
      = { results := [], suggestions := [],
          noResultsMessage := some (SmartSearch.noProductsMsg t query) } := by
  rw [SmartSearch.smartSearch, if_neg hq]
  rfl

/-- C7, witness for the amended theorem at the query `vvvv`. -/
theorem claimC7_witness :
    SmartSearch.smartSearch (("vvvv").data) [] none
      = { results := [], suggestions := [],
          noResultsMessage := some (SmartSearch.noProductsMsg none (("vvvv").data)) } :=
  claimC7_amended (("vvvv").data) none (by decide)
